import Mathlib

/-!
# waas-wallet server: record store, custody manager, spend limiter

A shallow embedding of `server/src/db.js`, `server/src/limits.js`,
`server/src/routes/auth.js`, `server/src/routes/wallet.js` and the start-up
checks of `server/src/index.js`.

* Request and record properties are optional strings; JavaScript truthiness
  (`undefined`, `null` and `''` are falsy) is kept as it is in the source.
* Library calls (bcryptjs, jsonwebtoken, node `crypto`, `Buffer`, ethers, the
  Biconomy client, the chain RPC) are fields of `Env`; what is assumed about
  them is stated as explicit law predicates, never built into a definition.
* Random draws (`Wallet.createRandom`, the bcrypt salt, `crypto.randomBytes`)
  and the clock are explicit arguments.
* A handler is a function from the store to the store after the request and
  the reply that was written (or no reply when the handler rejected).
* The object parsed from `users.json` is a map from its own keys to records.
  A read `obj[k]` also finds the members of `Object.prototype` where the object
  has no own key `k`; such a value has none of the record properties. A write
  that `JSON.stringify` does not serialise (under `__proto__`, or a function
  value) leaves the file as it was; values set on the shared prototype objects
  themselves are process state outside the store and are not modelled.
* Strings are sequences of Unicode scalar values; JavaScript strings with
  unpaired surrogates are outside the model. The `email` and `password` of a
  request body are strings or missing; `to`, `amount` and `token` may also be
  integral numbers. Queries of the relational backend succeed unless a
  `not null` column would receive null.
-/

namespace Waas

/-! ## JavaScript values -/

/-- A string property that may be missing (`undefined` or `null`). -/
abbrev Field := Option String

/-- A byte buffer. -/
abbrev Bytes := List (Fin 256)

/-- JavaScript truthiness of an optional string: missing and `''` are falsy. -/
def truthy (v : Field) : Bool :=
  match v with
  | some s => s != ""
  | none => false

/-- The value of `a || b`. -/
def jsOr (a b : Field) : Field :=
  if truthy a then a else b

/-- The string behind a truthy property, `none` for a falsy one. -/
def nonEmpty (v : Field) : Option String :=
  match v with
  | some s => if s = "" then none else some s
  | none => none

/-- The property key JavaScript uses for `obj[k]`: `undefined` becomes the
string `'undefined'`. -/
def propKey (k : Field) : String :=
  k.getD "undefined"

/-- The value of `s.split(sep)` for a one-character separator. -/
def jsSplit (sep : Char) (s : String) : List String :=
  (s.toList.splitOn sep).map String.mk

/-- The value of `s.startsWith(p)`. -/
def jsStartsWith (s p : String) : Bool :=
  p.toList.isPrefixOf s.toList

/-- The value of `s.slice(0, n)` on a string of one-unit characters. -/
def jsSlice0 (s : String) (n : Nat) : String :=
  String.mk (s.toList.take n)

/-- The value of `s.slice(n)` on a string of one-unit characters. -/
def jsSliceFrom (s : String) (n : Nat) : String :=
  String.mk (s.toList.drop n)

/-- A JSON value of a request body where the code accepts more than strings. -/
inductive JsValue where
  | undefined
  | str (s : String)
  | num (n : Int)
  deriving DecidableEq, Repr

/-- JavaScript truthiness of a body value: `undefined`, `''` and `0` are falsy. -/
def JsValue.truthy (v : JsValue) : Bool :=
  match v with
  | .undefined => false
  | .str s => s != ""
  | .num n => n != 0

/-! ## db.js -/

/-- A user object as the route code sees it: the result of `getUser`. The
last two properties exist only on records written before hashing and
encryption were introduced. -/
structure User where
  email : Field := none
  passwordHash : Field := none
  walletAddress : Field := none
  encryptedPk : Field := none
  smartAccountAddress : Field := none
  password : Field := none
  privateKey : Field := none
  deriving DecidableEq, Repr

/-- A row of the `users` table; `email` is the primary key and the first three
columns are `not null`. -/
structure PgRow where
  password_hash : String
  wallet_address : String
  encrypted_pk : String
  smart_account_address : Field
  deriving DecidableEq, Repr

/-- The record store: the `users` table when `getPg()` yields a client, else
the object held in `users.json`. -/
inductive Db where
  | pg (users : String → Option PgRow)
  | file (obj : String → Option User)

/-- The property names of `Object.prototype`, which every object parsed from
JSON inherits; each of them holds a function or an object. -/
def protoMembers : List String :=
  ["constructor", "__defineGetter__", "__defineSetter__", "hasOwnProperty",
   "__lookupGetter__", "__lookupSetter__", "isPrototypeOf", "propertyIsEnumerable",
   "toString", "valueOf", "__proto__", "toLocaleString"]

/-- Whether a key names a member of `Object.prototype`. -/
def protoMember (key : String) : Bool :=
  protoMembers.contains key

/-- The value of `obj[key]` on the object parsed from `users.json`: the own
record, else the inherited member of `Object.prototype`, which is truthy and
has none of the record properties, else `undefined`. -/
def lookup (obj : String → Option User) (key : String) : Option User :=
  match obj key with
  | some o => some o
  | none => if protoMember key then some {} else none

/-- The `getUser` of db.js. The relational query selects four columns; the
file store returns `obj[email] || null`. -/
def getUser (db : Db) (email : Field) : Option User :=
  match db with
  | .pg users =>
    match email with
    | none => none
    | some e =>
      match users e with
      | none => none
      | some r =>
        some { email := some e, passwordHash := some r.password_hash,
               walletAddress := some r.wallet_address, encryptedPk := some r.encrypted_pk }
  | .file obj => lookup obj (propKey email)

/-- The `saveUser` of db.js; `none` when the query is rejected (a `not null`
column would receive null). In the file store the assignment under
`__proto__`, when that is not an own key, sets the prototype of the object and
the file is written back as it was. -/
def saveUser (db : Db) (user : User) : Option Db :=
  match db with
  | .pg users =>
    match user.email, user.passwordHash, user.walletAddress, user.encryptedPk with
    | some e, some h, some w, some k =>
      let saa := jsOr user.smartAccountAddress none
      let row : PgRow :=
        match users e with
        | none => ⟨h, w, k, saa⟩
        | some old => ⟨h, w, k, saa.orElse fun _ => old.smart_account_address⟩
      some (.pg (Function.update users e (some row)))
    | _, _, _, _ => none
  | .file obj =>
    let key := propKey user.email
    let prev : Field := (lookup obj key).bind fun o => o.smartAccountAddress
    if key = "__proto__" ∧ obj key = none then some db
    else
      some (.file (Function.update obj key (some {
        passwordHash := user.passwordHash, walletAddress := user.walletAddress,
        encryptedPk := user.encryptedPk,
        smartAccountAddress := jsOr user.smartAccountAddress prev })))

/-- The `setSmartAccountAddress` of db.js. In the file store, under a key that
is not an own key and names a member of `Object.prototype`, the property is
set on that shared member and the file is written back as it was. -/
def setSmartAccountAddress (db : Db) (email : Field) (smartAccountAddress : String) : Db :=
  match db with
  | .pg users =>
    match email with
    | none => db
    | some e =>
      match users e with
      | none => db
      | some r =>
        .pg (Function.update users e (some { r with smart_account_address := some smartAccountAddress }))
  | .file obj =>
    let key := propKey email
    match obj key with
    | some cur =>
      .file (Function.update obj key (some { cur with smartAccountAddress := some smartAccountAddress }))
    | none =>
      if protoMember key then db
      else .file (Function.update obj key (some { smartAccountAddress := some smartAccountAddress }))

/-- The stored `walletAddress` for an id, in either backend. -/
def storedWalletAddress (db : Db) (id : String) : Field :=
  match db with
  | .pg users => (users id).map fun r => r.wallet_address
  | .file obj => (obj id).bind fun o => o.walletAddress

/-- The stored `smartAccountAddress` for an id, in either backend. -/
def storedSmartAccountAddress (db : Db) (id : String) : Field :=
  match db with
  | .pg users => (users id).bind fun r => r.smart_account_address
  | .file obj => (obj id).bind fun o => o.smartAccountAddress

/-- The stored `passwordHash` for an id, in either backend. -/
def storedPasswordHash (db : Db) (id : String) : Field :=
  match db with
  | .pg users => (users id).map fun r => r.password_hash
  | .file obj => (obj id).bind fun o => o.passwordHash

/-- Two stores hold the same thing under an id. -/
def sameAt (db db1 : Db) (id : String) : Prop :=
  match db, db1 with
  | .pg u, .pg u1 => u id = u1 id
  | .file o, .file o1 => o id = o1 id
  | _, _ => False

/-- Two stores are the same store: same backend, same content under every id. -/
def sameStore (db db1 : Db) : Prop :=
  ∀ id, sameAt db db1 id

/-! ## Libraries and process environment -/

/-- The payload of a session token: `sub` and `address`. -/
structure Claims where
  sub : Field := none
  address : Field := none
  deriving DecidableEq, Repr

/-- The wallet returned by `ethers.Wallet.createRandom()`. -/
structure Wallet where
  privateKey : String
  address : String
  deriving DecidableEq, Repr

/-- The random draws a request can consume. -/
structure Entropy where
  wallet : Wallet
  salt : Nat
  iv : Bytes

/-- A transaction handed to the signer by the direct-transfer path. -/
inductive TxRequest where
  | erc20Transfer (contract : String) (recipient : JsValue) (value : Int)
  | native (recipient : JsValue) (value : Int)
  deriving DecidableEq, Repr

/-- The libraries and the process environment the server runs against. -/
structure Env where
  /-- The lookup `process.env[name]`. -/
  env : String → Field
  /-- The call `bcrypt.hash(password, 10)` with the salt drawn for the call. -/
  bcryptHash : String → Nat → String
  /-- The call `bcrypt.compare(password, hash)`. -/
  bcryptCompare : String → String → Bool
  /-- The call `jwt.sign(payload, secret, opts)`; `none` when it throws. -/
  jwtSign : Claims → Field → Option String
  /-- The call `jwt.verify(token, secret)`; `none` when it throws. -/
  jwtVerify : String → Field → Option Claims
  /-- The call `crypto.scryptSync(secret, salt, keylen)`. -/
  scryptSync : String → String → Nat → Bytes
  /-- AES-256-GCM under a key and nonce: ciphertext and authentication tag. -/
  gcmSeal : Bytes → Bytes → Bytes → Bytes × Bytes
  /-- AES-256-GCM decryption of a ciphertext with its tag; the error message
  when the decipher throws. -/
  gcmOpen : Bytes → Bytes → Bytes → Bytes → Except String Bytes
  /-- The bytes of a string in UTF-8. -/
  utf8Encode : String → Bytes
  /-- The call `buf.toString('utf8')`. -/
  utf8Decode : Bytes → String
  /-- The call `buf.toString('base64')`. -/
  base64Encode : Bytes → String
  /-- The call `Buffer.from(s, 'base64')`. -/
  base64Decode : String → Bytes
  /-- The address of `new ethers.Wallet(pk)`; the error message when the
  constructor throws. -/
  walletAddress : String → Except String String
  /-- The call `ethers.toBigInt(v)`; the error message when it throws. -/
  toBigInt : JsValue → Except String Int
  /-- The call `BigInt(v)`; `none` when it throws. -/
  bigInt : JsValue → Option Int
  /-- The call `s.toUpperCase()`. -/
  toUpperCase : String → String
  /-- Building the Biconomy client for an owner key (`createBundler`,
  `new BiconomyPaymaster`, `createSmartAccountClient`); the error message when
  it rejects. -/
  createSmartAccountClient : String → Except String Unit
  /-- The call `smartAccount.getAccountAddress()` on the client of an owner
  key; the error message when it rejects. -/
  getAccountAddress : String → Except String String
  /-- Signing and broadcasting a transaction with a key: the transaction hash,
  or the error message. -/
  submit : String → TxRequest → Except String String
  /-- The call `provider.waitForTransaction(hash, 1, 60000)`: whether a
  receipt came back, or the error message. -/
  waitForTransaction : String → Except String Bool
  /-- The sponsored user operation of send-aa for an owner key, token
  contract, recipient and amount: the transaction hash if one was obtained,
  or the error message. -/
  sendUserOp : String → String → JsValue → Int → Except String Field
  /-- The call `new Date(t).toISOString()` for a clock reading `t`. -/
  toISOString : Nat → String

/-- The body of a JSON reply; a property that is not sent is `none`. -/
structure Body where
  error : Field := none
  accessToken : Field := none
  walletAddress : Field := none
  address : Field := none
  smartAccountAddress : Field := none
  txHash : Field := none
  deriving DecidableEq, Repr

/-- What a handler did with the response: a status and a JSON body, or nothing
because the handler rejected before replying. -/
inductive Reply where
  | json (status : Nat) (body : Body)
  | unhandled
  deriving DecidableEq, Repr

/-! ## routes/auth.js -/

/-- The `signToken` of auth.js. -/
def signToken (E : Env) (payload : Claims) : Option String :=
  E.jwtSign payload (E.env "JWT_SECRET")

/-- The `getAesKey` of auth.js and wallet.js. -/
def getAesKey (E : Env) : Bytes :=
  E.scryptSync ((jsOr (E.env "JWT_SECRET") (some "")).getD "") "waas-salt" 32

/-- The `encrypt` of auth.js, with the nonce drawn by `crypto.randomBytes(12)`. -/
def encrypt (E : Env) (iv : Bytes) (text : String) : String :=
  let key := getAesKey E
  let sealed := E.gcmSeal key iv (E.utf8Encode text)
  E.base64Encode iv ++ "." ++ E.base64Encode sealed.1 ++ "." ++ E.base64Encode sealed.2

/-- The `decrypt` of auth.js; the error message when it throws. -/
def decrypt (E : Env) (payload : Field) : Except String String :=
  match jsSplit '.' ((jsOr payload (some "")).getD "") with
  | ivB64 :: encB64 :: tagB64 :: _ =>
    let iv := E.base64Decode ivB64
    let enc := E.base64Decode encB64
    let tag := E.base64Decode tagB64
    let key := getAesKey E
    match E.gcmOpen key iv enc tag with
    | .ok dec => .ok (E.utf8Decode dec)
    | .error e => .error e
  | _ => .error "The first argument must be of type string"

/-- The value of `k.startsWith('0x') ? k : '0x' + k`. -/
def with0x (k : String) : String :=
  if jsStartsWith k "0x" then k else "0x" ++ k

/-- The `POST /signup` handler of auth.js. -/
def signup (E : Env) (db : Db) (rnd : Entropy) (email password : Field) : Db × Reply :=
  match nonEmpty email, nonEmpty password with
  | some e, some p =>
    match getUser db (some e) with
    | some _ => (db, .json 409 { error := some "User already exists" })
    | none =>
      let walletAddress := rnd.wallet.address
      let passwordHash := E.bcryptHash p rnd.salt
      let encryptedPk := encrypt E rnd.iv rnd.wallet.privateKey
      match saveUser db { email := some e, passwordHash := some passwordHash,
                          walletAddress := some walletAddress,
                          encryptedPk := some encryptedPk } with
      | none => (db, .unhandled)
      | some db1 =>
        match signToken E { sub := some e, address := some walletAddress } with
        | none => (db1, .unhandled)
        | some token =>
          (db1, .json 201 { accessToken := some token, walletAddress := some walletAddress })
  | _, _ => (db, .json 400 { error := some "Missing email/password" })

/-- The password check of `POST /signin`, with the legacy migration write:
the store afterwards and `ok`, or `none` when a call in it throws. -/
def checkPassword (E : Env) (db : Db) (rnd : Entropy) (email password : Field) (user : User) :
    Option (Db × Bool) :=
  if truthy user.passwordHash then
    match password with
    | some p => some (db, E.bcryptCompare p ((jsOr user.passwordHash (some "")).getD ""))
    | none => none
  else if truthy user.password then
    match password with
    | some p =>
      if user.password = some p then
        let passwordHash := E.bcryptHash p rnd.salt
        match saveUser db { email := email, passwordHash := some passwordHash,
                            walletAddress := user.walletAddress,
                            encryptedPk := user.encryptedPk } with
        | some db1 => some (db1, true)
        | none => none
      else some (db, false)
    | none => some (db, false)
  else some (db, false)

/-- The key that `POST /signin` controls for a user: `pk`, still null when
no key is stored or decryption threw. -/
def signinKey (E : Env) (user : User) : Field :=
  if truthy user.encryptedPk then
    match decrypt E user.encryptedPk with
    | .ok k => some k
    | .error _ => none
  else
    match nonEmpty user.privateKey with
    | some k => some (with0x k)
    | none => none

/-- The walletAddress repair of `POST /signin`: the store afterwards and the
address put in the token and the reply. -/
def repairWalletAddress (E : Env) (db : Db) (email : Field) (user : User) (pk : String) :
    Db × Field :=
  if truthy user.walletAddress then (db, user.walletAddress)
  else
    match E.walletAddress pk with
    | .error _ => (db, user.walletAddress)
    | .ok a =>
      match saveUser db { email := email, passwordHash := user.passwordHash,
                          walletAddress := some a, encryptedPk := user.encryptedPk } with
      | some db1 => (db1, some a)
      | none => (db, some a)

/-- The `POST /signin` handler of auth.js. -/
def signin (E : Env) (db : Db) (rnd : Entropy) (email password : Field) : Db × Reply :=
  match getUser db email with
  | none => (db, .json 401 { error := some "Invalid credentials" })
  | some user =>
    match checkPassword E db rnd email password user with
    | none => (db, .unhandled)
    | some (db1, false) => (db1, .json 401 { error := some "Invalid credentials" })
    | some (db1, true) =>
      match nonEmpty (signinKey E user) with
      | none =>
        (db1, .json 409 { error := some "account_requires_migration",
                          walletAddress := jsOr user.walletAddress none })
      | some pk =>
        let repaired := repairWalletAddress E db1 email user pk
        match signToken E { sub := email, address := repaired.2 } with
        | none => (repaired.1, .unhandled)
        | some token =>
          (repaired.1, .json 200 { accessToken := some token, walletAddress := repaired.2 })

/-! ## limits.js -/

/-- The `userDaily` map of limits.js. -/
abbrev SpendMap := String → Option Int

/-- The value of `x || 0n` for a map lookup `x`. -/
def orZero (x : Option Int) : Int :=
  match x with
  | some n => if n = 0 then 0 else n
  | none => 0

/-- The `getKey` of limits.js at clock reading `now`. -/
def getKey (E : Env) (now : Nat) (email : String) : String :=
  let today := jsSlice0 (E.toISOString now) 10
  email ++ ":" ++ today

/-- The `addSpend` of limits.js at clock reading `now`; `none` when
`BigInt(amountWei)` throws. -/
def addSpend (E : Env) (now : Nat) (userDaily : SpendMap) (email : String)
    (amountWei : JsValue) : Option SpendMap :=
  let key := getKey E now email
  let prev := orZero (userDaily key)
  match E.bigInt amountWei with
  | some n => some (Function.update userDaily key (some (prev + n)))
  | none => none

/-- The `getSpend` of limits.js at clock reading `now`. -/
def getSpend (E : Env) (now : Nat) (userDaily : SpendMap) (email : String) : Int :=
  let key := getKey E now email
  orZero (userDaily key)

/-! ## routes/wallet.js -/

/-- The `getUserFromAuthHeader` of wallet.js, given `req.headers.authorization`. -/
def getUserFromAuthHeader (E : Env) (db : Db) (authorization : Field) : Option User :=
  let auth := (jsOr authorization (some "")).getD ""
  let token : Field := if jsStartsWith auth "Bearer " then some (jsSliceFrom auth 7) else none
  match nonEmpty token with
  | none => none
  | some t =>
    match E.jwtVerify t (E.env "JWT_SECRET") with
    | none => none
    | some decoded => getUser db decoded.sub

/-- The `decryptPk` of wallet.js; the error message when it throws. -/
def decryptPk (E : Env) (encrypted : Field) : Except String String :=
  match jsSplit '.' ((jsOr encrypted (some "")).getD "") with
  | ivB64 :: encB64 :: tagB64 :: _ =>
    if ivB64 = "" ∨ encB64 = "" ∨ tagB64 = "" then
      .error "Invalid encrypted key format"
    else
      let iv := E.base64Decode ivB64
      let enc := E.base64Decode encB64
      let tag := E.base64Decode tagB64
      let key := getAesKey E
      match E.gcmOpen key iv enc tag with
      | .ok dec => .ok (E.utf8Decode dec)
      | .error e => .error e
  | _ => .error "Invalid encrypted key format"

/-- The `getUserPrivateKey` of wallet.js; the error message when it throws. -/
def getUserPrivateKey (E : Env) (user : User) : Except String String :=
  if truthy user.encryptedPk then decryptPk E user.encryptedPk
  else
    match nonEmpty user.privateKey with
    | some k => .ok (with0x k)
    | none => .error "User private key not found"

/-- The reply of a route's `catch (e)` block. -/
def failed (e : String) : Reply :=
  .json 500 { error := some e }

/-- The reply to a request without a valid session. -/
def unauthorized : Reply :=
  .json 401 { error := some "Unauthorized" }

/-- The reply of the account-abstraction routes when the bundler or the
paymaster URL is not set. -/
def notConfigured : Reply :=
  .json 501 { error := some "AA not configured. Set BICONOMY_BUNDLER_URL and BICONOMY_PAYMASTER_URL." }

/-- The `GET /address` handler of wallet.js. -/
def address (E : Env) (db : Db) (authorization : Field) : Db × Reply :=
  match getUserFromAuthHeader E db authorization with
  | none => (db, unauthorized)
  | some user => (db, .json 200 { address := user.walletAddress })

/-- The `GET /aa-address` handler of wallet.js. -/
def aaAddress (E : Env) (db : Db) (authorization : Field) : Db × Reply :=
  match getUserFromAuthHeader E db authorization with
  | none => (db, unauthorized)
  | some user =>
    if truthy user.smartAccountAddress then
      (db, .json 200 { smartAccountAddress := user.smartAccountAddress })
    else if !truthy (E.env "BICONOMY_BUNDLER_URL") || !truthy (E.env "BICONOMY_PAYMASTER_URL") then
      (db, notConfigured)
    else
      match getUserPrivateKey E user with
      | .error e => (db, failed e)
      | .ok ownerPk =>
        match E.walletAddress ownerPk with
        | .error e => (db, failed e)
        | .ok _ =>
          match E.createSmartAccountClient ownerPk with
          | .error e => (db, failed e)
          | .ok _ =>
            match E.getAccountAddress ownerPk with
            | .error e => (db, failed e)
            | .ok smartAccountAddress =>
              (setSmartAccountAddress db user.email smartAccountAddress,
               .json 200 { smartAccountAddress := some smartAccountAddress })

/-- The test `(token || 'USDC').toUpperCase() === 'USDC'` of `POST /send`;
the error message when `toUpperCase` is not a function of the value. -/
def selectsUsdc (E : Env) (token : JsValue) : Except String Bool :=
  match (if token.truthy then token else .str "USDC") with
  | .str s => .ok (E.toUpperCase s == "USDC")
  | _ => .error "(token || \"USDC\").toUpperCase is not a function"

/-- The transaction `POST /send` builds for a request, once the key is there;
the reply when building it fails. -/
def buildTx (E : Env) (recipient amount token : JsValue) : Except Reply TxRequest :=
  match selectsUsdc E token with
  | .error e => .error (failed e)
  | .ok true =>
    match nonEmpty (E.env "USDC_CONTRACT_ADDRESS") with
    | none => .error (failed "Server missing USDC_CONTRACT_ADDRESS")
    | some usdcAddress =>
      match E.toBigInt amount with
      | .error e => .error (failed e)
      | .ok value => .ok (.erc20Transfer usdcAddress recipient value)
  | .ok false =>
    match E.toBigInt amount with
    | .error e => .error (failed e)
    | .ok value => .ok (.native recipient value)

/-- The `POST /send` handler of wallet.js. -/
def send (E : Env) (db : Db) (authorization : Field) (recipient amount token : JsValue) :
    Db × Reply :=
  match getUserFromAuthHeader E db authorization with
  | none => (db, unauthorized)
  | some user =>
    if !recipient.truthy || !amount.truthy then
      (db, .json 400 { error := some "Missing to/amount" })
    else
      match getUserPrivateKey E user with
      | .error e => (db, failed e)
      | .ok pk =>
        match E.walletAddress pk with
        | .error e => (db, failed e)
        | .ok _ =>
          match buildTx E recipient amount token with
          | .error r => (db, r)
          | .ok request =>
            match E.submit pk request with
            | .error e => (db, failed e)
            | .ok hash =>
              match E.waitForTransaction hash with
              | .error e => (db, failed e)
              | .ok false => (db, .json 504 { error := some "Transaction not confirmed in time" })
              | .ok true => (db, .json 201 { txHash := some hash })

/-- The smart account address caching at the end of `POST /send-aa`. -/
def cacheSmartAccount (E : Env) (db : Db) (user : User) (ownerPk : String) : Db :=
  match E.getAccountAddress ownerPk with
  | .error _ => db
  | .ok saAddr =>
    if saAddr != "" && !truthy user.smartAccountAddress then
      setSmartAccountAddress db user.email saAddr
    else db

/-- The `POST /send-aa` handler of wallet.js. -/
def sendAa (E : Env) (db : Db) (authorization : Field) (recipient amount : JsValue) :
    Db × Reply :=
  match getUserFromAuthHeader E db authorization with
  | none => (db, unauthorized)
  | some user =>
    if !recipient.truthy || !amount.truthy then
      (db, .json 400 { error := some "Missing to/amount" })
    else if !truthy (E.env "BICONOMY_BUNDLER_URL") || !truthy (E.env "BICONOMY_PAYMASTER_URL") then
      (db, notConfigured)
    else
      match nonEmpty (E.env "USDC_CONTRACT_ADDRESS") with
      | none => (db, failed "Server missing USDC_CONTRACT_ADDRESS")
      | some usdcAddress =>
        match getUserPrivateKey E user with
        | .error e => (db, failed e)
        | .ok ownerPk =>
          match E.walletAddress ownerPk with
          | .error e => (db, failed e)
          | .ok _ =>
            match E.createSmartAccountClient ownerPk with
            | .error e => (db, failed e)
            | .ok _ =>
              match E.toBigInt amount with
              | .error e => (db, failed e)
              | .ok value =>
                match E.sendUserOp ownerPk usdcAddress recipient value with
                | .error e => (db, failed e)
                | .ok txHash =>
                  match nonEmpty txHash with
                  | none => (db, failed "Failed to obtain transaction hash from AA send")
                  | some h => (cacheSmartAccount E db user ownerPk, .json 201 { txHash := some h })

/-- The last steps of `POST /send` for a built transaction: sign and broadcast
it with the key, wait for one confirmation, reply. -/
def submitAndWait (E : Env) (pk : String) (request : TxRequest) : Reply :=
  match E.submit pk request with
  | .error e => failed e
  | .ok hash =>
    match E.waitForTransaction hash with
    | .error e => failed e
    | .ok false => .json 504 { error := some "Transaction not confirmed in time" }
    | .ok true => .json 201 { txHash := some hash }

/-- The token selector of a send request picks the configured token: it is
absent (or falsy), or a string that upper-cases to `USDC`. -/
def picksToken (E : Env) (token : JsValue) : Prop :=
  token.truthy = false ∨ ∃ s, token = .str s ∧ s ≠ "" ∧ E.toUpperCase s = "USDC"

/-- The token selector of a send request picks the native asset: it is a
non-empty string that does not upper-case to `USDC`. -/
def picksNative (E : Env) (token : JsValue) : Prop :=
  ∃ s, token = .str s ∧ s ≠ "" ∧ E.toUpperCase s ≠ "USDC"

/-! ## index.js -/

/-- How the start of index.js ends: `process.exit(code)` inside `requireEnv`,
or the call of `app.listen`. -/
inductive Startup where
  | exited (code : Nat)
  | listening
  deriving DecidableEq, Repr

/-- The `requireEnv` of index.js over `process.env`: the value it returns, or
`none` when it calls `process.exit(1)`. -/
def requireEnv (env : String → Field) (name : String) (fallback : Field) : Option String :=
  nonEmpty (jsOr (env name) fallback)

/-- The three `requireEnv` calls of index.js, in order, then `app.listen`. -/
def startup (env : String → Field) : Startup :=
  match requireEnv env "JWT_SECRET" none with
  | none => .exited 1
  | some _ =>
    match requireEnv env "RPC_URL" (some "https://sepolia.base.org") with
    | none => .exited 1
    | some _ =>
      match requireEnv env "USDC_CONTRACT_ADDRESS" none with
      | none => .exited 1
      | some _ => .listening

/-! ## What is assumed of the libraries -/

/-- Laws of `Buffer` text codecs: base64 output decodes to the bytes it came
from, stays inside the base64 alphabet and is empty only for no bytes; UTF-8
decodes to the string it came from and is empty only for `''`. -/
structure CodecLaws (E : Env) : Prop where
  base64_roundtrip : ∀ b, E.base64Decode (E.base64Encode b) = b
  base64_alphabet : ∀ b, '.' ∉ (E.base64Encode b).toList
  base64_nonempty : ∀ b, b ≠ [] → E.base64Encode b ≠ ""
  utf8_roundtrip : ∀ s, E.utf8Decode (E.utf8Encode s) = s
  utf8_nonempty : ∀ s, s ≠ "" → E.utf8Encode s ≠ []

/-- Laws of scrypt and AES-256-GCM: the derived key has the requested length;
under a 32-byte key and a 12-byte nonce the decipher returns what the cipher
was given; the ciphertext is as long as the plaintext and the tag has 16
bytes. -/
structure CipherLaws (E : Env) : Prop where
  key_length : ∀ secret salt n, (E.scryptSync secret salt n).length = n
  open_seal : ∀ key iv pt, key.length = 32 → iv.length = 12 →
    E.gcmOpen key iv (E.gcmSeal key iv pt).1 (E.gcmSeal key iv pt).2 = .ok pt
  seal_length : ∀ key iv pt, (E.gcmSeal key iv pt).1.length = pt.length
  tag_length : ∀ key iv pt, (E.gcmSeal key iv pt).2.length = 16

/-- Laws of bcryptjs: `compare` accepts the hash `hash` made of the same
password, and a hash is never the empty string. -/
structure BcryptLaws (E : Env) : Prop where
  compare_hash : ∀ p salt, E.bcryptCompare p (E.bcryptHash p salt) = true
  hash_nonempty : ∀ p salt, E.bcryptHash p salt ≠ ""

/-- Law of jsonwebtoken: signing with a non-empty secret returns a token. -/
structure JwtLaws (E : Env) : Prop where
  sign_some : ∀ c s, s ≠ "" → ∃ t, E.jwtSign c (some s) = some t

/-- Law of `Date.prototype.toISOString`: the string has at least the ten
characters `slice(0, 10)` keeps. -/
structure ClockLaws (E : Env) : Prop where
  iso_length : ∀ t, 10 ≤ (E.toISOString t).length

/-- What `ethers.Wallet.createRandom()` and `crypto.randomBytes(12)` return:
non-empty key and address strings and a 12-byte nonce. -/
structure Entropy.WellFormed (rnd : Entropy) : Prop where
  key_nonempty : rnd.wallet.privateKey ≠ ""
  address_nonempty : rnd.wallet.address ≠ ""
  iv_length : rnd.iv.length = 12

/-! ## A reference environment

Standard base64 and UTF-8, a calendar for `toISOString`, and small stand-ins
for the cryptographic and network calls. It shows that the laws above can be
met together and gives the concrete runs below something to run on. -/

/-- The base64 alphabet of RFC 4648. -/
def b64Alphabet : List Char :=
  "ABCDEFGHIJKLMNOPQRSTUVWXYZabcdefghijklmnopqrstuvwxyz0123456789+/".toList

/-- The character of a six-bit value. -/
def b64Char (n : Nat) : Char :=
  b64Alphabet.getD n 'A'

/-- The six-bit value of a character. -/
def b64Val (c : Char) : Nat :=
  b64Alphabet.indexOf c

/-- The byte of a number, modulo 256. -/
def toByte (n : Nat) : Fin 256 :=
  ⟨n % 256, Nat.mod_lt _ (by decide)⟩

/-- Standard base64 with padding, on characters. -/
def b64EncodeChars : Bytes → List Char
  | [] => []
  | [a] => [b64Char (a.val / 4), b64Char (a.val % 4 * 16), '=', '=']
  | [a, b] =>
    [b64Char (a.val / 4), b64Char (a.val % 4 * 16 + b.val / 16), b64Char (b.val % 16 * 4), '=']
  | a :: b :: c :: rest =>
    b64Char (a.val / 4) :: b64Char (a.val % 4 * 16 + b.val / 16)
      :: b64Char (b.val % 16 * 4 + c.val / 64) :: b64Char (c.val % 64) :: b64EncodeChars rest

/-- Decoding of padded base64, four characters at a time. -/
def b64DecodeChars : List Char → Bytes
  | c0 :: c1 :: c2 :: c3 :: rest =>
    if c2 = '=' then [toByte (b64Val c0 * 4 + b64Val c1 / 16)]
    else if c3 = '=' then
      [toByte (b64Val c0 * 4 + b64Val c1 / 16), toByte (b64Val c1 % 16 * 16 + b64Val c2 / 4)]
    else
      toByte (b64Val c0 * 4 + b64Val c1 / 16) :: toByte (b64Val c1 % 16 * 16 + b64Val c2 / 4)
        :: toByte (b64Val c2 % 4 * 64 + b64Val c3) :: b64DecodeChars rest
  | _ => []

/-- UTF-8 of one character. -/
def utf8EncodeChar (c : Char) : Bytes :=
  let n := c.toNat
  if n < 128 then [toByte n]
  else if n < 2048 then [toByte (192 + n / 64), toByte (128 + n % 64)]
  else if n < 65536 then
    [toByte (224 + n / 4096), toByte (128 + n / 64 % 64), toByte (128 + n % 64)]
  else
    [toByte (240 + n / 262144), toByte (128 + n / 4096 % 64), toByte (128 + n / 64 % 64),
     toByte (128 + n % 64)]

/-- UTF-8 of a list of characters. -/
def utf8EncodeChars : List Char → Bytes
  | [] => []
  | c :: cs => utf8EncodeChar c ++ utf8EncodeChars cs

/-- UTF-8 decoding with the code point collected so far and the number of
continuation bytes still expected. -/
def utf8DecodeFrom : Bytes → Nat → Nat → List Char
  | [], _, _ => []
  | b :: rest, _, 0 =>
    if b.val < 128 then Char.ofNat b.val :: utf8DecodeFrom rest 0 0
    else if b.val < 224 then utf8DecodeFrom rest (b.val - 192) 1
    else if b.val < 240 then utf8DecodeFrom rest (b.val - 224) 2
    else utf8DecodeFrom rest (b.val - 240) 3
  | b :: rest, acc, 1 => Char.ofNat (acc * 64 + (b.val - 128)) :: utf8DecodeFrom rest 0 0
  | b :: rest, acc, need + 2 => utf8DecodeFrom rest (acc * 64 + (b.val - 128)) (need + 1)


/-- The sum of the byte values of a buffer. -/
def byteSum (b : Bytes) : Nat :=
  (b.map fun x => x.val).sum

/-- Reference cipher: the byte added to every plaintext byte. -/
def refPad (key iv : Bytes) : Fin 256 :=
  toByte (byteSum key + byteSum iv)

/-- Reference cipher: the 16-byte tag of a ciphertext. -/
def refTag (key iv ct : Bytes) : Bytes :=
  List.replicate 16 (toByte (byteSum key + byteSum iv + byteSum ct + 1))

/-- Reference cipher: ciphertext and tag. -/
def refSeal (key iv pt : Bytes) : Bytes × Bytes :=
  (pt.map fun x => x + refPad key iv, refTag key iv (pt.map fun x => x + refPad key iv))

/-- Reference decipher: rejects a key that is not 32 bytes and a tag that
does not belong to the ciphertext. -/
def refOpen (key iv ct tag : Bytes) : Except String Bytes :=
  if key.length ≠ 32 then .error "Invalid key length"
  else if tag ≠ refTag key iv ct then .error "Unsupported state or unable to authenticate data"
  else .ok (ct.map fun x => x - refPad key iv)

/-- Reference key derivation. -/
def refScrypt (secret salt : String) (n : Nat) : Bytes :=
  List.replicate n (toByte (secret.length + salt.length))

/-- Reference password hash. -/
def refBcryptHash (password : String) (_salt : Nat) : String :=
  "$2a$10$" ++ password

/-- Reference password check. -/
def refBcryptCompare (password hash : String) : Bool :=
  hash == "$2a$10$" ++ password

/-- Reference token: the subject behind a fixed header. -/
def refJwtSign (c : Claims) (secret : Field) : Option String :=
  match nonEmpty secret with
  | none => none
  | some _ => some ("jwt." ++ propKey c.sub)

/-- Reference token verification. -/
def refJwtVerify (token : String) (secret : Field) : Option Claims :=
  match nonEmpty secret with
  | none => none
  | some _ =>
    if jsStartsWith token "jwt." then some { sub := some (jsSliceFrom token 4) } else none

/-- Reference address derivation: keys must start with `0x`. -/
def refWalletAddress (pk : String) : Except String String :=
  if jsStartsWith pk "0x" then .ok ("0xaddr" ++ jsSliceFrom pk 2)
  else .error "invalid private key"

/-- Reference integer conversion. -/
def refToBigInt (v : JsValue) : Except String Int :=
  match v with
  | .num n => .ok n
  | .str s =>
    match s.toInt? with
    | some n => .ok n
    | none => .error "invalid BigNumberish string"
  | .undefined => .error "invalid BigNumberish value"

/-- Reference `BigInt(v)`. -/
def refBigInt (v : JsValue) : Option Int :=
  match v with
  | .num n => some n
  | .str s => if s = "" then some 0 else s.toInt?
  | .undefined => none

/-- A decimal digit. -/
def digit (n : Nat) : Char :=
  Char.ofNat (48 + n % 10)

/-- Reference clock: `YYYY-MM-DDTHH:mm:ss.sssZ` for milliseconds since the
epoch, by the days-to-civil-date computation. -/
def refISOString (t : Nat) : String :=
  let ms := t % 86400000
  let z := t / 86400000 + 719468
  let era := z / 146097
  let doe := z % 146097
  let yoe := (doe - doe / 1460 + doe / 36524 - doe / 146096) / 365
  let doy := doe - (365 * yoe + yoe / 4 - yoe / 100)
  let mp := (5 * doy + 2) / 153
  let d := doy - (153 * mp + 2) / 5 + 1
  let m := if mp < 10 then mp + 3 else mp - 9
  let y := yoe + era * 400 + (if m ≤ 2 then 1 else 0)
  String.mk [digit (y / 1000), digit (y / 100), digit (y / 10), digit y, '-',
    digit (m / 10), digit m, '-', digit (d / 10), digit d, 'T',
    digit (ms / 36000000), digit (ms / 3600000), ':',
    digit (ms / 600000 % 6), digit (ms / 60000), ':',
    digit (ms / 10000 % 6), digit (ms / 1000), '.',
    digit (ms / 100), digit (ms / 10), digit ms, 'Z']

/-- Reference process environment: everything configured. -/
def refProcessEnv (name : String) : Field :=
  if name = "JWT_SECRET" then some "server-secret"
  else if name = "RPC_URL" then some "https://sepolia.base.org"
  else if name = "USDC_CONTRACT_ADDRESS" then some "0xusdc"
  else if name = "BICONOMY_BUNDLER_URL" then some "https://bundler"
  else if name = "BICONOMY_PAYMASTER_URL" then some "https://paymaster"
  else none

/-- The reference environment. -/
def refEnv : Env where
  env := refProcessEnv
  bcryptHash := refBcryptHash
  bcryptCompare := refBcryptCompare
  jwtSign := refJwtSign
  jwtVerify := refJwtVerify
  scryptSync := refScrypt
  gcmSeal := refSeal
  gcmOpen := refOpen
  utf8Encode := fun s => utf8EncodeChars s.toList
  utf8Decode := fun b => String.mk (utf8DecodeFrom b 0 0)
  base64Encode := fun b => String.mk (b64EncodeChars b)
  base64Decode := fun s => b64DecodeChars s.toList
  walletAddress := refWalletAddress
  toBigInt := refToBigInt
  bigInt := refBigInt
  toUpperCase := fun s => s.map Char.toUpper
  createSmartAccountClient := fun _ => .ok ()
  getAccountAddress := fun pk => .ok ("0xsmart" ++ jsSliceFrom pk 2)
  submit := fun _ _ => .ok "0xhash"
  waitForTransaction := fun _ => .ok true
  sendUserOp := fun _ _ _ _ => .ok (some "0xuserop")
  toISOString := refISOString

/-- The reference environment without bundler and paymaster URLs. -/
def refEnvNoAa : Env :=
  { refEnv with env := fun name =>
      if name = "BICONOMY_BUNDLER_URL" ∨ name = "BICONOMY_PAYMASTER_URL" then none
      else refProcessEnv name }

/-- Reference random draws. -/
def refEntropy : Entropy where
  wallet := { privateKey := "0xk1", address := "0xaddrk1" }
  salt := 7
  iv := [1, 2, 3, 4, 5, 6, 7, 8, 9, 10, 11, 12]

/-! ## Concrete stores and records -/

/-- The payload of the key `0xk1` under the reference environment. -/
def refPayload : String :=
  encrypt refEnv refEntropy.iv "0xk1"

/-- An empty `users.json`. -/
def emptyFileDb : Db :=
  .file fun _ => none

/-- An empty `users` table. -/
def emptyPgDb : Db :=
  .pg fun _ => none

/-- A `users.json` with one record as sign-up writes it. -/
def hashedFileDb : Db :=
  .file fun k =>
    if k = "a@x.com" then
      some { passwordHash := some "$2a$10$pw1", walletAddress := some "0xaddrk1",
             encryptedPk := some refPayload }
    else none

/-- A `users.json` with one legacy record: plaintext password, encrypted key,
no password hash and no wallet address. -/
def legacyFileDb : Db :=
  .file fun k =>
    if k = "l@x.com" then some { password := some "p", encryptedPk := some refPayload }
    else none

/-- A `users` table with one row whose `smart_account_address` is set. -/
def cachedPgDb : Db :=
  .pg fun k =>
    if k = "a@x.com" then some ⟨"$2a$10$pw1", "0xaddrk1", refPayload, some "0xS1"⟩
    else none

/-- A `users.json` with one record whose `walletAddress` is the empty string. -/
def emptyAddressFileDb : Db :=
  .file fun k =>
    if k = "a@x.com" then
      some { passwordHash := some "$2a$10$pw1", walletAddress := some "",
             encryptedPk := some refPayload }
    else none

/-- A `users.json` with one record that has a password hash and an address
but neither `encryptedPk` nor `privateKey`. -/
def noKeyFileDb : Db :=
  .file fun k =>
    if k = "n@x.com" then
      some { passwordHash := some "$2a$10$pw1", walletAddress := some "0xaddrk1" }
    else none

/-- The stored `encryptedPk` for an id, in either backend. -/
def storedEncryptedPk (db : Db) (id : String) : Field :=
  match db with
  | .pg users => (users id).map fun r => r.encrypted_pk
  | .file obj => (obj id).bind fun o => o.encryptedPk

/-- The UTC calendar day `getKey` uses at clock reading `t`. -/
def utcDay (E : Env) (t : Nat) : String :=
  jsSlice0 (E.toISOString t) 10

/-- An empty `userDaily` map. -/
def emptySpend : SpendMap :=
  fun _ => none

/-- A process environment with the signing secret and the token address only:
no `RPC_URL`, no bundler and no paymaster URL. -/
def minimalProcessEnv (name : String) : Field :=
  if name = "JWT_SECRET" then some "server-secret"
  else if name = "USDC_CONTRACT_ADDRESS" then some "0xusdc"
  else none

/-- A `users.json` with one legacy record: plaintext password, plaintext
private key and a wallet address; no password hash, no encrypted key. -/
def legacyKeyFileDb : Db :=
  .file fun k =>
    if k = "k@x.com" then
      some { password := some "p", privateKey := some "k1", walletAddress := some "0xaddrk1" }
    else none

/-- A `users.json` with one record that has a password hash and a plaintext
private key; no encrypted key and no wallet address. -/
def plainKeyFileDb : Db :=
  .file fun k =>
    if k = "h@x.com" then some { passwordHash := some "$2a$10$pw1", privateKey := some "k1" }
    else none

/-- Whether the store holds a record of its own under an id. -/
def hasRecord (db : Db) (id : String) : Bool :=
  match db with
  | .pg users => (users id).isSome
  | .file obj => (obj id).isSome

/-- A hexadecimal digit. -/
def isHexDigit (c : Char) : Bool :=
  c.isDigit || (decide ('a' ≤ c) && decide (c ≤ 'f')) || (decide ('A' ≤ c) && decide (c ≤ 'F'))

/-- A private key as ethers renders it, the only text `encrypt` is called
with: `0x` followed by 64 hexadecimal digits. -/
def isPrivateKey (k : String) : Bool :=
  match k.toList with
  | '0' :: 'x' :: digits => digits.length == 64 && digits.all isHexDigit
  | _ => false

/-- A private key in the form ethers renders it. -/
def refKey : String :=
  "0x59c6995e998f97a5a0044966f0945389dc9e86dae88c7a8412f4603b6b78690d"

/-- Whether a supplied password is wrong for a stored record: `bcrypt.compare`
rejects it against the stored hash or, when the record has no hash, it is not
the stored plaintext password. -/
def wrongPassword (E : Env) (user : User) (p : String) : Prop :=
  if truthy user.passwordHash then E.bcryptCompare p (user.passwordHash.getD "") = false
  else user.password ≠ some p

/-! ## Basic facts about the JavaScript helpers -/

theorem truthy_some (s : String) : truthy (some s) = true ↔ s ≠ "" := by
  simp [truthy]

theorem truthy_of_ne {s : String} (h : s ≠ "") : truthy (some s) = true :=
  (truthy_some s).2 h

theorem truthy_none : truthy none = false := rfl

theorem truthy_empty : truthy (some "") = false := rfl

theorem nonEmpty_of_ne {s : String} (h : s ≠ "") : nonEmpty (some s) = some s := by
  simp [nonEmpty, h]

theorem nonEmpty_eq_none_iff (v : Field) : nonEmpty v = none ↔ truthy v = false := by
  cases v with
  | none => simp [nonEmpty, truthy]
  | some s => by_cases h : s = "" <;> simp [nonEmpty, truthy, h]

theorem nonEmpty_eq_some_iff (v : Field) (s : String) :
    nonEmpty v = some s ↔ v = some s ∧ s ≠ "" := by
  cases v with
  | none => simp [nonEmpty]
  | some x =>
    by_cases h : x = ""
    · subst h
      simp [nonEmpty]
      intro h1
      exact h1.symm
    · simp [nonEmpty, h]
      intro h1
      subst h1
      exact h

theorem jsOr_empty_getD (s : String) : (jsOr (some s) (some "")).getD "" = s := by
  by_cases h : s = ""
  · subst h
    rfl
  · simp [jsOr, truthy_of_ne h]

theorem jsOr_none_of_truthy {v : Field} (h : truthy v = true) : jsOr v none = v := by
  simp [jsOr, h]

theorem lookup_eq_none (obj : String → Option User) (key : String) :
    lookup obj key = none ↔ obj key = none ∧ protoMember key = false := by
  unfold lookup
  cases obj key with
  | some o => simp
  | none => cases protoMember key <;> simp

theorem lookup_update_same (obj : String → Option User) (key : String) (o : User) :
    lookup (Function.update obj key (some o)) key = some o := by
  simp [lookup, Function.update_same]

theorem ne_proto_of_not_member {key : String} (h : protoMember key = false) :
    key ≠ "__proto__" := by
  intro hk
  subst hk
  exact absurd h (by decide)

theorem saveUser_file_new (obj : String → Option User) (user : User) (key : String)
    (hk : user.email = some key) (hnone : obj key = none) (hp : protoMember key = false) :
    saveUser (.file obj) user
      = some (.file (Function.update obj key (some {
          passwordHash := user.passwordHash, walletAddress := user.walletAddress,
          encryptedPk := user.encryptedPk,
          smartAccountAddress := jsOr user.smartAccountAddress none }))) := by
  have hl : lookup obj key = none := (lookup_eq_none obj key).2 ⟨hnone, hp⟩
  simp [saveUser, hk, propKey, hl, ne_proto_of_not_member hp]

theorem jsSplit_frame (a b c : String) (ha : '.' ∉ a.toList) (hb : '.' ∉ b.toList)
    (hc : '.' ∉ c.toList) : jsSplit '.' (a ++ "." ++ b ++ "." ++ c) = [a, b, c] := by
  have h : (a ++ "." ++ b ++ "." ++ c).toList
      = ['.'].intercalate [a.toList, b.toList, c.toList] := by
    simp [List.intercalate, List.intersperse]
  unfold jsSplit
  rw [h, List.splitOn_intercalate]
  · simp
  · intro l hl
    simp at hl
    rcases hl with rfl | rfl | rfl <;> assumption
  · simp

/-! ## The reference environment meets the laws -/

theorem b64Val_b64Char : ∀ n, n < 64 → b64Val (b64Char n) = n := by decide
theorem b64Char_ne_pad : ∀ n, n < 64 → b64Char n ≠ '=' := by decide
theorem b64Char_ne_dot : ∀ n, n < 64 → b64Char n ≠ '.' := by decide

theorem toByte_val (a : Fin 256) (n : Nat) (h : n = a.val) : toByte n = a := by
  apply Fin.ext
  simp [toByte, h, Nat.mod_eq_of_lt a.isLt]

theorem b64_roundtrip : ∀ b : Bytes, b64DecodeChars (b64EncodeChars b) = b
  | [] => rfl
  | [a] => by
    have ha := a.isLt
    simp only [b64EncodeChars, b64DecodeChars, if_true]
    rw [b64Val_b64Char _ (by omega), b64Val_b64Char _ (by omega)]
    congr 1
    exact toByte_val a _ (by omega)
  | [a, b] => by
    have ha := a.isLt
    have hb := b.isLt
    simp only [b64EncodeChars, b64DecodeChars, if_true]
    rw [if_neg (b64Char_ne_pad _ (by omega))]
    rw [b64Val_b64Char _ (by omega), b64Val_b64Char _ (by omega), b64Val_b64Char _ (by omega)]
    rw [toByte_val a _ (by omega), toByte_val b _ (by omega)]
  | a :: b :: c :: rest => by
    have ha := a.isLt
    have hb := b.isLt
    have hc := c.isLt
    simp only [b64EncodeChars, b64DecodeChars]
    rw [if_neg (b64Char_ne_pad _ (by omega)), if_neg (b64Char_ne_pad _ (by omega))]
    rw [b64Val_b64Char _ (by omega), b64Val_b64Char _ (by omega), b64Val_b64Char _ (by omega),
      b64Val_b64Char _ (by omega)]
    rw [toByte_val a _ (by omega), toByte_val b _ (by omega), toByte_val c _ (by omega),
      b64_roundtrip rest]

theorem b64_no_dot : ∀ b : Bytes, '.' ∉ b64EncodeChars b
  | [] => by simp [b64EncodeChars]
  | [a] => by
    have ha := a.isLt
    have h1 := b64Char_ne_dot (a.val / 4) (by omega)
    have h2 := b64Char_ne_dot (a.val % 4 * 16) (by omega)
    simp [b64EncodeChars, Ne.symm h1, Ne.symm h2]
  | [a, b] => by
    have ha := a.isLt
    have hb := b.isLt
    have h1 := b64Char_ne_dot (a.val / 4) (by omega)
    have h2 := b64Char_ne_dot (a.val % 4 * 16 + b.val / 16) (by omega)
    have h3 := b64Char_ne_dot (b.val % 16 * 4) (by omega)
    simp [b64EncodeChars, Ne.symm h1, Ne.symm h2, Ne.symm h3]
  | a :: b :: c :: rest => by
    have ha := a.isLt
    have hb := b.isLt
    have hc := c.isLt
    have h1 := b64Char_ne_dot (a.val / 4) (by omega)
    have h2 := b64Char_ne_dot (a.val % 4 * 16 + b.val / 16) (by omega)
    have h3 := b64Char_ne_dot (b.val % 16 * 4 + c.val / 64) (by omega)
    have h4 := b64Char_ne_dot (c.val % 64) (by omega)
    simp [b64EncodeChars, Ne.symm h1, Ne.symm h2, Ne.symm h3, Ne.symm h4, b64_no_dot rest]

theorem b64_nonempty : ∀ b : Bytes, b ≠ [] → b64EncodeChars b ≠ []
  | [], h => absurd rfl h
  | [_], _ => by simp [b64EncodeChars]
  | [_, _], _ => by simp [b64EncodeChars]
  | _ :: _ :: _ :: _, _ => by simp [b64EncodeChars]
theorem char_toNat_lt (c : Char) : c.toNat < 1114112 := by
  have h := c.valid
  simp only [Char.toNat]
  rcases h with h | h
  · have : c.val.toNat < 55296 := h
    omega
  · have : c.val.toNat < 1114112 := h.2
    omega

theorem toByte_val_eq (n : Nat) (h : n < 256) : (toByte n).val = n := by
  simp [toByte, Nat.mod_eq_of_lt h]

theorem utf8Decode_char (c : Char) (rest : Bytes) :
    utf8DecodeFrom (utf8EncodeChar c ++ rest) 0 0 = c :: utf8DecodeFrom rest 0 0 := by
  have hc := char_toNat_lt c
  have hof := Char.ofNat_toNat c
  unfold utf8EncodeChar
  by_cases h1 : c.toNat < 128
  · simp only [h1, if_true, List.singleton_append, utf8DecodeFrom]
    rw [toByte_val_eq _ (by omega)]
    simp [h1, hof]
  · by_cases h2 : c.toNat < 2048
    · simp only [h1, h2, if_true, if_false, List.cons_append, List.nil_append, utf8DecodeFrom]
      rw [toByte_val_eq _ (by omega), toByte_val_eq _ (by omega)]
      have e : (192 + c.toNat / 64 - 192) * 64 + (128 + c.toNat % 64 - 128) = c.toNat := by omega
      rw [if_neg (by omega), if_pos (by omega)]
      rw [e, hof]
    · by_cases h3 : c.toNat < 65536
      · simp only [h1, h2, h3, if_true, if_false, List.cons_append, List.nil_append, utf8DecodeFrom]
        rw [toByte_val_eq _ (by omega), toByte_val_eq _ (by omega), toByte_val_eq _ (by omega)]
        have e : ((224 + c.toNat / 4096 - 224) * 64 + (128 + c.toNat / 64 % 64 - 128)) * 64
            + (128 + c.toNat % 64 - 128) = c.toNat := by omega
        rw [if_neg (by omega), if_neg (by omega), if_pos (by omega)]
        rw [e, hof]
      · simp only [h1, h2, h3, if_false, List.cons_append, List.nil_append, utf8DecodeFrom]
        rw [toByte_val_eq _ (by omega), toByte_val_eq _ (by omega), toByte_val_eq _ (by omega),
          toByte_val_eq _ (by omega)]
        have e : (((240 + c.toNat / 262144 - 240) * 64 + (128 + c.toNat / 4096 % 64 - 128)) * 64
            + (128 + c.toNat / 64 % 64 - 128)) * 64 + (128 + c.toNat % 64 - 128) = c.toNat := by
          omega
        rw [if_neg (by omega), if_neg (by omega), if_neg (by omega)]
        rw [e, hof]

theorem utf8_roundtrip_chars : ∀ cs : List Char, utf8DecodeFrom (utf8EncodeChars cs) 0 0 = cs
  | [] => rfl
  | c :: cs => by
    simp only [utf8EncodeChars]
    rw [utf8Decode_char, utf8_roundtrip_chars cs]

theorem utf8EncodeChar_ne_nil (c : Char) : utf8EncodeChar c ≠ [] := by
  unfold utf8EncodeChar
  simp only
  split_ifs <;> simp

theorem utf8EncodeChars_ne_nil : ∀ cs : List Char, cs ≠ [] → utf8EncodeChars cs ≠ []
  | [], h => absurd rfl h
  | c :: cs, _ => by
    simp [utf8EncodeChars, utf8EncodeChar_ne_nil]

theorem refEnv_codecLaws : CodecLaws refEnv where
  base64_roundtrip := fun b => b64_roundtrip b
  base64_alphabet := fun b => b64_no_dot b
  base64_nonempty := fun b hb h => b64_nonempty b hb (by
    have := congrArg String.toList h
    simpa [refEnv] using this)
  utf8_roundtrip := fun s => by
    show String.mk (utf8DecodeFrom (utf8EncodeChars s.toList) 0 0) = s
    rw [utf8_roundtrip_chars]
    cases s
    rfl
  utf8_nonempty := fun s hs => by
    apply utf8EncodeChars_ne_nil
    intro h
    apply hs
    cases s
    simp_all

theorem refEnv_cipherLaws : CipherLaws refEnv where
  key_length := fun secret salt n => by simp [refEnv, refScrypt]
  open_seal := fun key iv pt hk _ => by
    simp [refEnv, refOpen, refSeal, hk, Function.comp_def]
  seal_length := fun key iv pt => by simp [refEnv, refSeal]
  tag_length := fun key iv pt => by simp [refEnv, refSeal, refTag]

theorem refEnv_bcryptLaws : BcryptLaws refEnv where
  compare_hash := fun p salt => by simp [refEnv, refBcryptCompare, refBcryptHash]
  hash_nonempty := fun p salt h => by
    have h1 := congrArg String.length h
    simp only [refEnv, refBcryptHash, String.length_append] at h1
    have h2 : "$2a$10$".length = 7 := by decide
    have h3 : "".length = 0 := by decide
    omega

theorem refEnv_jwtLaws : JwtLaws refEnv where
  sign_some := fun c s hs => by simp [refEnv, refJwtSign, nonEmpty_of_ne hs]

theorem refEnv_clockLaws : ClockLaws refEnv where
  iso_length := fun t => by simp [refEnv, refISOString]

theorem refEntropy_wellFormed : refEntropy.WellFormed where
  key_nonempty := by decide
  address_nonempty := by decide
  iv_length := by decide

/-! ## Key encryption: framing and round trip -/

theorem encrypt_ne_empty (E : Env) (iv : Bytes) (k : String) : encrypt E iv k ≠ "" := by
  intro h
  have h1 := congrArg String.length h
  simp only [encrypt, String.length_append] at h1
  have h2 : ".".length = 1 := by decide
  have h3 : "".length = 0 := by decide
  omega

theorem bytes_ne_nil_of_length {b : Bytes} {n : Nat} (h : b.length = n + 1) : b ≠ [] := by
  intro hb
  subst hb
  simp at h

theorem split_encrypt (E : Env) (hc : CodecLaws E) (iv : Bytes) (k : String) :
    jsSplit '.' (encrypt E iv k)
      = [E.base64Encode iv,
         E.base64Encode (E.gcmSeal (getAesKey E) iv (E.utf8Encode k)).1,
         E.base64Encode (E.gcmSeal (getAesKey E) iv (E.utf8Encode k)).2] := by
  unfold encrypt
  exact jsSplit_frame _ _ _ (hc.base64_alphabet _) (hc.base64_alphabet _) (hc.base64_alphabet _)

theorem getAesKey_length (E : Env) (hk : CipherLaws E) : (getAesKey E).length = 32 := by
  unfold getAesKey
  exact hk.key_length _ _ _

theorem decrypt_encrypt (E : Env) (hc : CodecLaws E) (hk : CipherLaws E) (iv : Bytes)
    (hiv : iv.length = 12) (k : String) : decrypt E (some (encrypt E iv k)) = .ok k := by
  unfold decrypt
  rw [jsOr_empty_getD, split_encrypt E hc]
  simp only [hc.base64_roundtrip]
  rw [hk.open_seal _ _ _ (getAesKey_length E hk) hiv]
  simp only [hc.utf8_roundtrip]

theorem decryptPk_encrypt (E : Env) (hc : CodecLaws E) (hk : CipherLaws E) (iv : Bytes)
    (hiv : iv.length = 12) (k : String) (hne : k ≠ "") :
    decryptPk E (some (encrypt E iv k)) = .ok k := by
  have h1 : E.base64Encode iv ≠ "" := hc.base64_nonempty _ (bytes_ne_nil_of_length hiv)
  have h2 : E.base64Encode (E.gcmSeal (getAesKey E) iv (E.utf8Encode k)).1 ≠ "" := by
    apply hc.base64_nonempty
    intro h
    have hl := hk.seal_length (getAesKey E) iv (E.utf8Encode k)
    rw [h] at hl
    exact hc.utf8_nonempty k hne (List.length_eq_zero.mp hl.symm)
  have h3 : E.base64Encode (E.gcmSeal (getAesKey E) iv (E.utf8Encode k)).2 ≠ "" :=
    hc.base64_nonempty _ (bytes_ne_nil_of_length (hk.tag_length _ _ _))
  unfold decryptPk
  rw [jsOr_empty_getD, split_encrypt E hc]
  simp only [h1, h2, h3, or_self, if_false, hc.base64_roundtrip]
  rw [hk.open_seal _ _ _ (getAesKey_length E hk) hiv]
  simp only [hc.utf8_roundtrip]

theorem isPrivateKey_ne_empty {k : String} (h : isPrivateKey k = true) : k ≠ "" := by
  intro hk
  subst hk
  exact absurd h (by decide)

/-- C4: for every private key string, the payload of `encrypt` splits on `.`
into exactly its three base64 parts (nonce, ciphertext, tag), and both
`decrypt` of auth.js and `decryptPk` of wallet.js return the key under the
same server secret. -/
theorem privateKey_roundtrip (E : Env) (hc : CodecLaws E) (hk : CipherLaws E) (iv : Bytes)
    (hiv : iv.length = 12) (k : String) (hkey : isPrivateKey k = true) :
    jsSplit '.' (encrypt E iv k)
        = [E.base64Encode iv,
           E.base64Encode (E.gcmSeal (getAesKey E) iv (E.utf8Encode k)).1,
           E.base64Encode (E.gcmSeal (getAesKey E) iv (E.utf8Encode k)).2]
      ∧ decrypt E (some (encrypt E iv k)) = .ok k
      ∧ decryptPk E (some (encrypt E iv k)) = .ok k :=
  ⟨split_encrypt E hc iv k, decrypt_encrypt E hc hk iv hiv k,
    decryptPk_encrypt E hc hk iv hiv k (isPrivateKey_ne_empty hkey)⟩

/-- C4 witness: the round trip of a 32-byte key on the reference environment. -/
theorem privateKey_roundtrip_witness :
    isPrivateKey refKey = true
      ∧ decrypt refEnv (some (encrypt refEnv refEntropy.iv refKey)) = .ok refKey
      ∧ decryptPk refEnv (some (encrypt refEnv refEntropy.iv refKey)) = .ok refKey :=
  ⟨by decide,
    (privateKey_roundtrip refEnv refEnv_codecLaws refEnv_cipherLaws refEntropy.iv (by decide)
      refKey (by decide)).2⟩

/-! ## Sign-up and sign-in -/

theorem secret_of_truthy {E : Env} (hs : truthy (E.env "JWT_SECRET") = true) :
    ∃ sec, E.env "JWT_SECRET" = some sec ∧ sec ≠ "" := by
  cases h : E.env "JWT_SECRET" with
  | none => simp [h, truthy] at hs
  | some sec =>
    rw [h] at hs
    exact ⟨sec, rfl, (truthy_some sec).1 hs⟩

theorem signToken_some (E : Env) (hj : JwtLaws E) (hs : truthy (E.env "JWT_SECRET") = true)
    (c : Claims) : ∃ t, signToken E c = some t := by
  obtain ⟨sec, hsec, hne⟩ := secret_of_truthy hs
  unfold signToken
  rw [hsec]
  exact hj.sign_some c sec hne

theorem checkPassword_hashed (E : Env) (db : Db) (rnd : Entropy) (email : Field) (p : String)
    (user : User) (hash : String) (hh : user.passwordHash = some hash) (hne : hash ≠ "") :
    checkPassword E db rnd email (some p) user = some (db, E.bcryptCompare p hash) := by
  unfold checkPassword
  rw [hh]
  simp [truthy_of_ne hne, jsOr_empty_getD]

theorem repairWalletAddress_present (E : Env) (db : Db) (email : Field) (user : User)
    (pk : String) (hw : truthy user.walletAddress = true) :
    repairWalletAddress E db email user pk = (db, user.walletAddress) := by
  simp [repairWalletAddress, hw]

/-- Sign-in of a record with a password hash that accepts the password, a
usable key and a stored address: a session for the stored address, and the
store as it was. -/
theorem signin_session (E : Env) (db : Db) (rnd : Entropy) (email : Field) (p : String)
    (user : User) (hash pk t : String) (hu : getUser db email = some user)
    (hh : user.passwordHash = some hash) (hne : hash ≠ "")
    (hcmp : E.bcryptCompare p hash = true)
    (hkey : nonEmpty (signinKey E user) = some pk)
    (hw : truthy user.walletAddress = true)
    (ht : signToken E { sub := email, address := user.walletAddress } = some t) :
    signin E db rnd email (some p)
      = (db, .json 200 { accessToken := some t, walletAddress := user.walletAddress }) := by
  unfold signin
  rw [hu]
  simp only [checkPassword_hashed E db rnd email p user hash hh hne, hcmp, hkey,
    repairWalletAddress_present E db email user pk hw, ht]

theorem signinKey_encrypted (E : Env) (hc : CodecLaws E) (hk : CipherLaws E) (user : User)
    (iv : Bytes) (hiv : iv.length = 12) (k : String)
    (he : user.encryptedPk = some (encrypt E iv k)) : signinKey E user = some k := by
  unfold signinKey
  rw [he, truthy_of_ne (encrypt_ne_empty E iv k), decrypt_encrypt E hc hk iv hiv k]
  rfl

/-- Sign-up then sign-in where the lookup finds nothing: for a non-empty id and
password such that `getUser` returns null for the id, sign-up replies 201 with
a token and the new wallet address, and sign-in with the same id and password
on the store sign-up left replies 200 with a token and the same wallet
address. -/
theorem signup_then_signin (E : Env) (hc : CodecLaws E) (hk : CipherLaws E) (hb : BcryptLaws E)
    (hj : JwtLaws E) (hs : truthy (E.env "JWT_SECRET") = true) (db : Db) (rnd rnd2 : Entropy)
    (hr : rnd.WellFormed) (id password : String) (hid : id ≠ "") (hpw : password ≠ "")
    (hnew : getUser db (some id) = none) :
    ∃ t1 t2,
      (signup E db rnd (some id) (some password)).2
          = .json 201 { accessToken := some t1, walletAddress := some rnd.wallet.address }
        ∧ (signin E (signup E db rnd (some id) (some password)).1 rnd2 (some id) (some password)).2
          = .json 200 { accessToken := some t2, walletAddress := some rnd.wallet.address } := by
  obtain ⟨t1, ht1⟩ := signToken_some E hj hs { sub := some id, address := some rnd.wallet.address }
  have hcmp := hb.compare_hash password rnd.salt
  have hhash := hb.hash_nonempty password rnd.salt
  refine ⟨t1, t1, ?_⟩
  cases db with
  | pg users =>
    have hnone : users id = none := by
      cases h : users id with
      | none => rfl
      | some r => simp [getUser, h] at hnew
    have hsu : signup E (.pg users) rnd (some id) (some password)
        = (.pg (Function.update users id (some ⟨E.bcryptHash password rnd.salt,
              rnd.wallet.address, encrypt E rnd.iv rnd.wallet.privateKey, none⟩)),
           .json 201 { accessToken := some t1, walletAddress := some rnd.wallet.address }) := by
      simp only [signup, nonEmpty_of_ne hid, nonEmpty_of_ne hpw, hnew, saveUser, hnone, ht1]
      rfl
    rw [hsu]
    refine ⟨rfl, ?_⟩
    rw [signin_session E _ rnd2 (some id) password
        { email := some id, passwordHash := some (E.bcryptHash password rnd.salt),
          walletAddress := some rnd.wallet.address,
          encryptedPk := some (encrypt E rnd.iv rnd.wallet.privateKey) }
        (E.bcryptHash password rnd.salt) rnd.wallet.privateKey t1 ?_ rfl hhash hcmp ?_ ?_ ht1]
    · simp [getUser, Function.update_same]
    · rw [signinKey_encrypted E hc hk _ rnd.iv hr.iv_length rnd.wallet.privateKey rfl]
      exact nonEmpty_of_ne hr.key_nonempty
    · exact truthy_of_ne hr.address_nonempty
  | file obj =>
    have hl : obj id = none ∧ protoMember id = false := by
      apply (lookup_eq_none obj id).1
      simpa [getUser, propKey] using hnew
    have hsu : signup E (.file obj) rnd (some id) (some password)
        = (.file (Function.update obj id (some {
              passwordHash := some (E.bcryptHash password rnd.salt),
              walletAddress := some rnd.wallet.address,
              encryptedPk := some (encrypt E rnd.iv rnd.wallet.privateKey) })),
           .json 201 { accessToken := some t1, walletAddress := some rnd.wallet.address }) := by
      have hsave : saveUser (.file obj)
          { email := some id, passwordHash := some (E.bcryptHash password rnd.salt),
            walletAddress := some rnd.wallet.address,
            encryptedPk := some (encrypt E rnd.iv rnd.wallet.privateKey) }
          = some (.file (Function.update obj id (some {
              passwordHash := some (E.bcryptHash password rnd.salt),
              walletAddress := some rnd.wallet.address,
              encryptedPk := some (encrypt E rnd.iv rnd.wallet.privateKey) }))) :=
        saveUser_file_new obj _ id rfl hl.1 hl.2
      simp only [signup, nonEmpty_of_ne hid, nonEmpty_of_ne hpw, hnew, ht1, hsave]
    rw [hsu]
    refine ⟨rfl, ?_⟩
    rw [signin_session E _ rnd2 (some id) password
        { passwordHash := some (E.bcryptHash password rnd.salt),
          walletAddress := some rnd.wallet.address,
          encryptedPk := some (encrypt E rnd.iv rnd.wallet.privateKey) }
        (E.bcryptHash password rnd.salt) rnd.wallet.privateKey t1 ?_ rfl hhash hcmp ?_ ?_ ht1]
    · simp [getUser, propKey, lookup_update_same]
    · rw [signinKey_encrypted E hc hk _ rnd.iv hr.iv_length rnd.wallet.privateKey rfl]
      exact nonEmpty_of_ne hr.key_nonempty
    · exact truthy_of_ne hr.address_nonempty

/-- Sign-up of `a@x.com` on an empty file store of the reference environment,
then sign-in. -/
theorem signup_then_signin_witness :
    ∃ t1 t2,
      (signup refEnv emptyFileDb refEntropy (some "a@x.com") (some "pw1")).2
          = .json 201 { accessToken := some t1, walletAddress := some "0xaddrk1" }
        ∧ (signin refEnv (signup refEnv emptyFileDb refEntropy (some "a@x.com") (some "pw1")).1
            refEntropy (some "a@x.com") (some "pw1")).2
          = .json 200 { accessToken := some t2, walletAddress := some "0xaddrk1" } :=
  signup_then_signin refEnv refEnv_codecLaws refEnv_cipherLaws refEnv_bcryptLaws refEnv_jwtLaws
    (by decide) emptyFileDb refEntropy refEntropy refEntropy_wellFormed "a@x.com" "pw1"
    (by decide) (by decide) rfl

/-- C1 at the failing input: `users.json` is empty, so no record exists for the
id `constructor`, yet `obj[email]` finds the inherited member of
`Object.prototype`: sign-up replies 409 `User already exists`, and sign-in
with the same id and password replies 401. On the empty relational store the
same two requests reply 201 and 200 with the same wallet address. -/
theorem signup_inherited_key_refused :
    hasRecord emptyFileDb "constructor" = false
      ∧ (signup refEnv emptyFileDb refEntropy (some "constructor") (some "pw1")).2
          = .json 409 { error := some "User already exists" }
      ∧ (signin refEnv (signup refEnv emptyFileDb refEntropy (some "constructor") (some "pw1")).1
          refEntropy (some "constructor") (some "pw1")).2
          = .json 401 { error := some "Invalid credentials" }
      ∧ (signup refEnv emptyPgDb refEntropy (some "constructor") (some "pw1")).2
          = .json 201 { accessToken := some "jwt.constructor", walletAddress := some "0xaddrk1" }
      ∧ (signin refEnv (signup refEnv emptyPgDb refEntropy (some "constructor") (some "pw1")).1
          refEntropy (some "constructor") (some "pw1")).2
          = .json 200 { accessToken := some "jwt.constructor", walletAddress := some "0xaddrk1" } := by
  decide

/-- C2: when no record exists for the id, or the supplied password is wrong for
the stored record (rejected by `bcrypt.compare` against the stored hash, or
different from the plaintext password of a record without a hash), sign-in
replies 401 `Invalid credentials` with no token and leaves the store as it was. -/
theorem signin_wrong_password (E : Env) (db : Db) (rnd : Entropy) (id p : String)
    (h : ∀ user, getUser db (some id) = some user → wrongPassword E user p) :
    signin E db rnd (some id) (some p)
      = (db, .json 401 { error := some "Invalid credentials" }) := by
  unfold signin
  cases hu : getUser db (some id) with
  | none => rfl
  | some user =>
    have hw := h user hu
    unfold wrongPassword at hw
    by_cases hh : truthy user.passwordHash = true
    · rw [if_pos hh] at hw
      cases hph : user.passwordHash with
      | none => simp [hph, truthy] at hh
      | some hash =>
        rw [hph] at hh hw
        have hne := (truthy_some hash).1 hh
        simp only [Option.getD_some] at hw
        simp only [checkPassword_hashed E db rnd (some id) p user hash hph hne, hw]
    · rw [if_neg hh] at hw
      have hcp : checkPassword E db rnd (some id) (some p) user = some (db, false) := by
        unfold checkPassword
        simp only [hh, hw]
        simp
      simp only [hcp]

/-- C2 witness: the record of `a@x.com` holds the hash of `pw1`; sign-in with
`pw2` is rejected. -/
theorem signin_wrong_password_witness :
    signin refEnv hashedFileDb refEntropy (some "a@x.com") (some "pw2")
      = (hashedFileDb, .json 401 { error := some "Invalid credentials" }) :=
  signin_wrong_password refEnv hashedFileDb refEntropy "a@x.com" "pw2" (by
    intro user hu
    have hu1 : user = { passwordHash := some "$2a$10$pw1", walletAddress := some "0xaddrk1",
                        encryptedPk := some refPayload } := by
      simpa [getUser, hashedFileDb, propKey, lookup] using hu.symm
    subst hu1
    unfold wrongPassword
    decide)

/-- C3 at the failing input: the legacy record of `l@x.com` has the plaintext
password `p`, an encrypted key and no wallet address. Sign-in with `p` returns
a session, yet the record left in the store has no password hash (the address
repair saved the hash of the object read before the migration), and the next
sign-in with `p` is rejected. -/
theorem legacy_signin_drops_hash :
    (signin refEnv legacyFileDb refEntropy (some "l@x.com") (some "p")).2
        = .json 200 { accessToken := some "jwt.l@x.com", walletAddress := some "0xaddrk1" }
      ∧ storedPasswordHash
          (signin refEnv legacyFileDb refEntropy (some "l@x.com") (some "p")).1 "l@x.com" = none
      ∧ (signin refEnv (signin refEnv legacyFileDb refEntropy (some "l@x.com") (some "p")).1
          refEntropy (some "l@x.com") (some "p")).2
        = .json 401 { error := some "Invalid credentials" } := by
  decide

theorem getUser_pg_smartAccountAddress (users : String → Option PgRow) (email : Field)
    (user : User) (h : getUser (.pg users) email = some user) :
    user.smartAccountAddress = none := by
  cases email with
  | none => simp [getUser] at h
  | some e =>
    cases hr : users e with
    | none => simp [getUser, hr] at h
    | some r =>
      simp only [getUser, hr, Option.some.injEq] at h
      rw [← h]

/-- C5 at the failing input: the row of `a@x.com` in the relational store has
the smart account address `0xS1`. Without bundler and paymaster URLs the
aa-address route replies 501 instead of the stored value; with them it derives
an address again, replies with it and writes it over the stored value. -/
theorem aaAddress_pg_ignores_cache :
    storedSmartAccountAddress cachedPgDb "a@x.com" = some "0xS1"
      ∧ (aaAddress refEnvNoAa cachedPgDb (some "Bearer jwt.a@x.com")).2 = notConfigured
      ∧ (aaAddress refEnv cachedPgDb (some "Bearer jwt.a@x.com")).2
          = .json 200 { smartAccountAddress := some "0xsmartk1" }
      ∧ storedSmartAccountAddress
          (aaAddress refEnv cachedPgDb (some "Bearer jwt.a@x.com")).1 "a@x.com"
          = some "0xsmartk1" := by
  decide

/-! ## The stored wallet address across sign-in -/

theorem storedWalletAddress_saveUser (db db1 : Db) (u : User) (id : String)
    (h : saveUser db u = some db1) :
    storedWalletAddress db1 id = storedWalletAddress db id
      ∨ (id = propKey u.email ∧ storedWalletAddress db1 id = u.walletAddress) := by
  cases db with
  | pg users =>
    unfold saveUser at h
    cases he : u.email with
    | none => simp [he] at h
    | some e =>
      cases hh : u.passwordHash with
      | none => simp [he, hh] at h
      | some ph =>
        cases hw : u.walletAddress with
        | none => simp [he, hh, hw] at h
        | some w =>
          cases hk : u.encryptedPk with
          | none => simp [he, hh, hw, hk] at h
          | some k =>
            simp only [he, hh, hw, hk, Option.some.injEq] at h
            subst h
            by_cases hid : id = e
            · subst hid
              right
              cases hr : users id <;> simp [storedWalletAddress, propKey, hr]
            · left
              simp [storedWalletAddress, Function.update_noteq hid]
  | file obj =>
    simp only [saveUser] at h
    split at h
    · simp only [Option.some.injEq] at h
      subst h
      exact Or.inl rfl
    · simp only [Option.some.injEq] at h
      subst h
      by_cases hid : id = propKey u.email
      · subst hid
        right
        simp [storedWalletAddress]
      · left
        simp [storedWalletAddress, Function.update_noteq hid]

theorem storedWalletAddress_of_getUser (db : Db) (email : Field) (user : User)
    (h : getUser db email = some user) :
    storedWalletAddress db (propKey email) = user.walletAddress := by
  cases db with
  | pg users =>
    cases email with
    | none => simp [getUser] at h
    | some e =>
      cases hr : users e with
      | none => simp [getUser, hr] at h
      | some r =>
        simp only [getUser, hr, Option.some.injEq] at h
        subst h
        simp [storedWalletAddress, propKey, hr]
  | file obj =>
    simp only [getUser, lookup] at h
    cases ho : obj (propKey email) with
    | some o =>
      simp only [ho, Option.some.injEq] at h
      subst h
      simp [storedWalletAddress, ho]
    | none =>
      simp only [ho] at h
      split at h
      · simp only [Option.some.injEq] at h
        subst h
        simp [storedWalletAddress, ho]
      · cases h

theorem saveUser_same_walletAddress (db db2 : Db) (email : Field) (user u : User) (id : String)
    (hu : getUser db email = some user) (he : u.email = email)
    (hw : u.walletAddress = user.walletAddress) (hs : saveUser db u = some db2) :
    storedWalletAddress db2 id = storedWalletAddress db id := by
  rcases storedWalletAddress_saveUser db db2 u id hs with h | ⟨hid, h⟩
  · exact h
  · rw [h, hw, hid, he, storedWalletAddress_of_getUser db email user hu]

theorem checkPassword_keeps_walletAddress (E : Env) (db db1 : Db) (rnd : Entropy)
    (email password : Field) (user : User) (ok : Bool)
    (hu : getUser db email = some user)
    (h : checkPassword E db rnd email password user = some (db1, ok)) (id : String) :
    storedWalletAddress db1 id = storedWalletAddress db id := by
  unfold checkPassword at h
  split at h
  · split at h
    · simp only [Option.some.injEq, Prod.mk.injEq] at h
      rw [← h.1]
    · simp at h
  · split at h
    · split at h
      · split at h
        · simp only at h
          split at h
          · rename_i db2 hs
            simp only [Option.some.injEq, Prod.mk.injEq] at h
            rw [← h.1]
            exact saveUser_same_walletAddress db db2 email user _ id hu (by rfl) (by rfl) hs
          · simp at h
        · simp only [Option.some.injEq, Prod.mk.injEq] at h
          rw [← h.1]
      · simp only [Option.some.injEq, Prod.mk.injEq] at h
        rw [← h.1]
    · simp only [Option.some.injEq, Prod.mk.injEq] at h
      rw [← h.1]

theorem repairWalletAddress_keeps (E : Env) (db : Db) (email : Field) (user : User) (pk : String)
    (id w : String) (hu : storedWalletAddress db (propKey email) = user.walletAddress)
    (hw : storedWalletAddress db id = some w) (hne : w ≠ "") :
    storedWalletAddress (repairWalletAddress E db email user pk).1 id = some w := by
  unfold repairWalletAddress
  split
  · exact hw
  · rename_i ht
    split
    · exact hw
    · split
      · rename_i a db2 hs
        show storedWalletAddress db2 id = some w
        rcases storedWalletAddress_saveUser db db2 _ id hs with h | ⟨hid, _⟩
        · rw [h, hw]
        · have hid1 : id = propKey email := hid
          subst hid1
          rw [hu] at hw
          rw [hw, truthy_of_ne hne] at ht
          exact absurd rfl ht
      · exact hw

/-- C6, as the code has it: a stored `walletAddress` that is a non-empty string
is the stored `walletAddress` after any sign-in, whatever the request and its
outcome. -/
theorem signin_keeps_walletAddress (E : Env) (db : Db) (rnd : Entropy) (email password : Field)
    (id w : String) (hw : storedWalletAddress db id = some w) (hne : w ≠ "") :
    storedWalletAddress (signin E db rnd email password).1 id = some w := by
  unfold signin
  cases hu : getUser db email with
  | none => simpa using hw
  | some user =>
    simp only
    cases hc : checkPassword E db rnd email password user with
    | none => simpa using hw
    | some r =>
      obtain ⟨db1, ok⟩ := r
      have hkeep := checkPassword_keeps_walletAddress E db db1 rnd email password user ok hu hc
      have hw1 : storedWalletAddress db1 id = some w := by rw [hkeep, hw]
      cases ok with
      | false => simpa using hw1
      | true =>
        simp only
        cases hk : nonEmpty (signinKey E user) with
        | none => simpa using hw1
        | some pk =>
          have hu1 : storedWalletAddress db1 (propKey email) = user.walletAddress := by
            rw [hkeep, storedWalletAddress_of_getUser db email user hu]
          have hrep := repairWalletAddress_keeps E db1 email user pk id w hu1 hw1 hne
          simp only
          cases signToken E { sub := email, address := (repairWalletAddress E db1 email user pk).2 }
            <;> simpa using hrep

/-- C6 witness: the stored address of `a@x.com` survives a sign-in with the
right password. -/
theorem signin_keeps_walletAddress_witness :
    storedWalletAddress
      (signin refEnv hashedFileDb refEntropy (some "a@x.com") (some "pw1")).1 "a@x.com"
      = some "0xaddrk1" :=
  signin_keeps_walletAddress refEnv hashedFileDb refEntropy (some "a@x.com") (some "pw1")
    "a@x.com" "0xaddrk1" (by decide) (by decide)

/-- C6 counterexample: the record of `a@x.com` stores the empty string as
`walletAddress`, which is not null; a sign-in with the right password replaces
it with the address derived from the key. -/
theorem signin_overwrites_empty_walletAddress :
    storedWalletAddress emptyAddressFileDb "a@x.com" = some ""
      ∧ storedWalletAddress
          (signin refEnv emptyAddressFileDb refEntropy (some "a@x.com") (some "pw1")).1 "a@x.com"
          = some "0xaddrk1" := by
  decide

/-! ## The spend limiter -/

theorem orZero_some (x : Int) : orZero (some x) = x := by
  simp only [orZero]
  split_ifs with h
  · exact h.symm
  · rfl

theorem getSpend_eq (E : Env) (t : Nat) (m : SpendMap) (email : String) :
    getSpend E t m email = orZero (m (getKey E t email)) := rfl

theorem getKey_eq (E : Env) (t : Nat) (email : String) :
    getKey E t email = email ++ ":" ++ utcDay E t := rfl

theorem utcDay_length (E : Env) (hc : ClockLaws E) (t : Nat) : (utcDay E t).toList.length = 10 := by
  show (List.take 10 (E.toISOString t).toList).length = 10
  rw [List.length_take]
  exact Nat.min_eq_left (hc.iso_length t)

theorem getKey_injective (E : Env) (hc : ClockLaws E) (t u : Nat) (a b : String)
    (h : getKey E t a = getKey E u b) : a = b ∧ utcDay E t = utcDay E u := by
  rw [getKey_eq, getKey_eq] at h
  have h1 : a.toList ++ (':' :: (utcDay E t).toList)
      = b.toList ++ (':' :: (utcDay E u).toList) := by
    have h0 := congrArg String.toList h
    simp only [String.toList, String.data_append, List.append_assoc] at h0
    exact h0
  have hlen : (':' :: (utcDay E t).toList).length = (':' :: (utcDay E u).toList).length := by
    simp only [List.length_cons, utcDay_length E hc]
  obtain ⟨h2, h3⟩ := List.append_inj' h1 hlen
  have h4 := List.tail_eq_of_cons_eq h3
  exact ⟨String.ext h2, String.ext h4⟩

/-- C7, as the code has it: when `BigInt` accepts the amount as the integer
`n`, `addSpend` succeeds and `getSpend` for the account at any later clock
reading of the same UTC day is its value before plus `n`, where the value
before is zero when nothing was recorded; it is not smaller than before
whenever `n` is not negative. -/
theorem addSpend_adds (E : Env) (now later : Nat) (userDaily : SpendMap) (email : String)
    (amountWei : JsValue) (n : Int) (hn : E.bigInt amountWei = some n)
    (hday : utcDay E now = utcDay E later) :
    ∃ m1, addSpend E now userDaily email amountWei = some m1
      ∧ getSpend E later m1 email = getSpend E now userDaily email + n
      ∧ (userDaily (getKey E now email) = none → getSpend E now userDaily email = 0)
      ∧ (0 ≤ n → getSpend E now userDaily email ≤ getSpend E later m1 email) := by
  have hkey : getKey E later email = getKey E now email := by
    rw [getKey_eq, getKey_eq, hday]
  refine ⟨Function.update userDaily (getKey E now email)
    (some (orZero (userDaily (getKey E now email)) + n)), ?_, ?_, ?_, ?_⟩
  · simp only [addSpend, hn]
  · rw [getSpend_eq, getSpend_eq, hkey, Function.update_same, orZero_some]
  · intro h0
    rw [getSpend_eq, h0]
    rfl
  · intro h0
    rw [getSpend_eq, getSpend_eq, hkey, Function.update_same, orZero_some]
    omega

/-- C7 witness: 5 added at the epoch, read back one hour later the same day. -/
theorem addSpend_adds_witness :
    ∃ m1, addSpend refEnv 0 emptySpend "a@x.com" (.num 5) = some m1
      ∧ getSpend refEnv 3600000 m1 "a@x.com" = getSpend refEnv 0 emptySpend "a@x.com" + 5
      ∧ (emptySpend (getKey refEnv 0 "a@x.com") = none
          → getSpend refEnv 0 emptySpend "a@x.com" = 0)
      ∧ ((0 : Int) ≤ 5
          → getSpend refEnv 0 emptySpend "a@x.com" ≤ getSpend refEnv 3600000 m1 "a@x.com") :=
  addSpend_adds refEnv 0 3600000 emptySpend "a@x.com" (.num 5) 5 rfl (by decide)

/-- C7 counterexample: `BigInt` accepts -5, and after `addSpend` with it the
counter of the account for the day is -5, smaller than the 0 it was before. -/
theorem addSpend_negative_decreases :
    refEnv.bigInt (.num (-5)) = some (-5)
      ∧ getSpend refEnv 0 emptySpend "a@x.com" = 0
      ∧ (addSpend refEnv 0 emptySpend "a@x.com" (.num (-5))).map
          (fun m1 => getSpend refEnv 0 m1 "a@x.com") = some (-5) := by
  decide

/-- C8: `addSpend` for account `a` at clock reading `t` leaves `getSpend`
unchanged for every account `b` and clock reading `u` whose pair of account
and UTC day differs from that of `a` and `t`. -/
theorem addSpend_frame (E : Env) (hc : ClockLaws E) (t u : Nat) (userDaily m1 : SpendMap)
    (a b : String) (amountWei : JsValue)
    (hne : (a, utcDay E t) ≠ (b, utcDay E u))
    (h : addSpend E t userDaily a amountWei = some m1) :
    getSpend E u m1 b = getSpend E u userDaily b := by
  have hk : getKey E u b ≠ getKey E t a := by
    intro heq
    obtain ⟨h1, h2⟩ := getKey_injective E hc u t b a heq
    exact hne (by rw [h1, h2])
  unfold addSpend at h
  cases hn : E.bigInt amountWei with
  | none => simp [hn] at h
  | some n =>
    simp only [hn, Option.some.injEq] at h
    subst h
    rw [getSpend_eq, getSpend_eq, Function.update_noteq hk]

/-- C8 witness: spend of `a@x.com` at the epoch does not show for the account
`a@x.com:1970-01-01` on the day after. -/
theorem addSpend_frame_witness :
    getSpend refEnv 86400000
        (Function.update emptySpend (getKey refEnv 0 "a@x.com") (some 5)) "a@x.com:1970-01-01"
      = getSpend refEnv 86400000 emptySpend "a@x.com:1970-01-01" :=
  addSpend_frame refEnv refEnv_clockLaws 0 86400000 emptySpend _ "a@x.com" "a@x.com:1970-01-01"
    (.num 5) (by decide) rfl

/-! ## Records without a stored key -/

theorem signinKey_no_key (E : Env) (user : User) (hek : truthy user.encryptedPk = false)
    (hpk : truthy user.privateKey = false) : signinKey E user = none := by
  simp [signinKey, hek, (nonEmpty_eq_none_iff _).2 hpk]

theorem getUserPrivateKey_no_key (E : Env) (user : User) (hek : truthy user.encryptedPk = false)
    (hpk : truthy user.privateKey = false) :
    getUserPrivateKey E user = .error "User private key not found" := by
  simp [getUserPrivateKey, hek, (nonEmpty_eq_none_iff _).2 hpk]

/-- C9, as the code has it: for a record with a password hash that accepts the
password and neither `encryptedPk` nor `privateKey`, sign-in replies 409
`account_requires_migration` with the stored address or null, issues no token
and leaves the store as it was; `getUserPrivateKey` throws `User private key
not found`, and send, send-aa and aa-address, once past their earlier checks,
reply 500 with that message. -/
theorem no_key_record (E : Env) (db : Db) (rnd : Entropy) (email : Field) (p : String)
    (user : User) (hash : String) (hu : getUser db email = some user)
    (hh : user.passwordHash = some hash) (hne : hash ≠ "")
    (hcmp : E.bcryptCompare p hash = true)
    (hek : truthy user.encryptedPk = false) (hpk : truthy user.privateKey = false) :
    signin E db rnd email (some p)
        = (db, .json 409 { error := some "account_requires_migration",
                           walletAddress := jsOr user.walletAddress none })
      ∧ getUserPrivateKey E user = .error "User private key not found"
      ∧ (∀ authorization recipient amount token,
          getUserFromAuthHeader E db authorization = some user →
          recipient.truthy = true → amount.truthy = true →
          send E db authorization recipient amount token
            = (db, .json 500 { error := some "User private key not found" }))
      ∧ (∀ authorization recipient amount,
          getUserFromAuthHeader E db authorization = some user →
          recipient.truthy = true → amount.truthy = true →
          truthy (E.env "BICONOMY_BUNDLER_URL") = true →
          truthy (E.env "BICONOMY_PAYMASTER_URL") = true →
          truthy (E.env "USDC_CONTRACT_ADDRESS") = true →
          sendAa E db authorization recipient amount
            = (db, .json 500 { error := some "User private key not found" }))
      ∧ (∀ authorization,
          getUserFromAuthHeader E db authorization = some user →
          truthy user.smartAccountAddress = false →
          truthy (E.env "BICONOMY_BUNDLER_URL") = true →
          truthy (E.env "BICONOMY_PAYMASTER_URL") = true →
          aaAddress E db authorization
            = (db, .json 500 { error := some "User private key not found" })) := by
  have hkey := getUserPrivateKey_no_key E user hek hpk
  refine ⟨?_, hkey, ?_, ?_, ?_⟩
  · unfold signin
    rw [hu]
    simp only [checkPassword_hashed E db rnd email p user hash hh hne, hcmp,
      signinKey_no_key E user hek hpk]
    rfl
  · intro authorization recipient amount token ha hr hm
    simp [send, ha, hr, hm, hkey, failed]
  · intro authorization recipient amount ha hr hm hb hp hc
    cases hn : nonEmpty (E.env "USDC_CONTRACT_ADDRESS") with
    | none => rw [(nonEmpty_eq_none_iff _).1 hn] at hc; exact absurd hc (by decide)
    | some usdc => simp [sendAa, ha, hr, hm, hb, hp, hn, hkey, failed]
  · intro authorization ha hs hb hp
    simp [aaAddress, ha, hs, hb, hp, hkey, failed]

/-- C9 witness: the record of `n@x.com` has a hash and an address but no key. -/
theorem no_key_record_witness :
    signin refEnv noKeyFileDb refEntropy (some "n@x.com") (some "pw1")
      = (noKeyFileDb, .json 409 { error := some "account_requires_migration",
                                  walletAddress := some "0xaddrk1" }) :=
  (no_key_record refEnv noKeyFileDb refEntropy (some "n@x.com") "pw1"
    { passwordHash := some "$2a$10$pw1", walletAddress := some "0xaddrk1" } "$2a$10$pw1"
    rfl rfl (by decide) (by decide) (by decide) (by decide)).1

/-- C9 counterexample: for the record of `n@x.com`, which has a hash and no
key, sign-in with the right password is not a session but 409
`account_requires_migration`, and send with a session for the account replies
500 `User private key not found`. -/
theorem no_key_signin_refused :
    (signin refEnv noKeyFileDb refEntropy (some "n@x.com") (some "pw1")).2
        = .json 409 { error := some "account_requires_migration",
                      walletAddress := some "0xaddrk1" }
      ∧ (send refEnv noKeyFileDb (some "Bearer jwt.n@x.com") (.str "0xbbb") (.num 1000000)
          .undefined).2
        = .json 500 { error := some "User private key not found" } := by
  decide

/-! ## Sign-up -/

/-- The three outcomes of sign-up by what the lookup finds: it replies 400 and
leaves the store as it was when the id or the password is missing or empty;
with both present it replies 409 and leaves the store as it was when `getUser`
returns a value for the id; when `getUser` returns null it replies 201 with a
token and the store afterwards holds, under the id, the new password hash,
encrypted key and wallet address, and under every other id what it held. -/
theorem signup_contract (E : Env) (hj : JwtLaws E) (hs : truthy (E.env "JWT_SECRET") = true)
    (db : Db) (rnd : Entropy) (email password : Field) :
    (nonEmpty email = none ∨ nonEmpty password = none →
        signup E db rnd email password
          = (db, .json 400 { error := some "Missing email/password" }))
      ∧ (∀ e p u, nonEmpty email = some e → nonEmpty password = some p →
          getUser db (some e) = some u →
          signup E db rnd email password
            = (db, .json 409 { error := some "User already exists" }))
      ∧ (∀ e p, nonEmpty email = some e → nonEmpty password = some p →
          getUser db (some e) = none →
          (∃ t, (signup E db rnd email password).2
              = .json 201 { accessToken := some t, walletAddress := some rnd.wallet.address })
            ∧ storedPasswordHash (signup E db rnd email password).1 e
                = some (E.bcryptHash p rnd.salt)
            ∧ storedEncryptedPk (signup E db rnd email password).1 e
                = some (encrypt E rnd.iv rnd.wallet.privateKey)
            ∧ storedWalletAddress (signup E db rnd email password).1 e
                = some rnd.wallet.address
            ∧ ∀ id, id ≠ e → sameAt db (signup E db rnd email password).1 id) := by
  refine ⟨?_, ?_, ?_⟩
  · intro h
    unfold signup
    rcases h with h | h
    · rw [h]
    · rw [h]
      cases nonEmpty email <;> rfl
  · intro e p u he hp hu
    unfold signup
    rw [he, hp]
    simp only [hu]
  · intro e p he hp hu
    obtain ⟨t, ht⟩ := signToken_some E hj hs { sub := some e, address := some rnd.wallet.address }
    cases db with
    | pg users =>
      have hnone : users e = none := by
        cases h : users e with
        | none => rfl
        | some r => simp [getUser, h] at hu
      have hsu : signup E (.pg users) rnd email password
          = (.pg (Function.update users e (some ⟨E.bcryptHash p rnd.salt,
                rnd.wallet.address, encrypt E rnd.iv rnd.wallet.privateKey, none⟩)),
             .json 201 { accessToken := some t, walletAddress := some rnd.wallet.address }) := by
        simp only [signup, he, hp, hu, saveUser, hnone, ht]
        rfl
      rw [hsu]
      refine ⟨⟨t, rfl⟩, ?_, ?_, ?_, ?_⟩
      · simp [storedPasswordHash]
      · simp [storedEncryptedPk]
      · simp [storedWalletAddress]
      · intro id hid
        simp [sameAt, Function.update_noteq hid]
    | file obj =>
      have hl : obj e = none ∧ protoMember e = false := by
        apply (lookup_eq_none obj e).1
        simpa [getUser, propKey] using hu
      have hsave : saveUser (.file obj)
          { email := some e, passwordHash := some (E.bcryptHash p rnd.salt),
            walletAddress := some rnd.wallet.address,
            encryptedPk := some (encrypt E rnd.iv rnd.wallet.privateKey) }
          = some (.file (Function.update obj e (some {
              passwordHash := some (E.bcryptHash p rnd.salt),
              walletAddress := some rnd.wallet.address,
              encryptedPk := some (encrypt E rnd.iv rnd.wallet.privateKey) }))) :=
        saveUser_file_new obj _ e rfl hl.1 hl.2
      have hsu : signup E (.file obj) rnd email password
          = (.file (Function.update obj e (some {
                passwordHash := some (E.bcryptHash p rnd.salt),
                walletAddress := some rnd.wallet.address,
                encryptedPk := some (encrypt E rnd.iv rnd.wallet.privateKey) })),
             .json 201 { accessToken := some t, walletAddress := some rnd.wallet.address }) := by
        simp only [signup, he, hp, hu, ht, hsave]
      rw [hsu]
      refine ⟨⟨t, rfl⟩, ?_, ?_, ?_, ?_⟩
      · simp [storedPasswordHash]
      · simp [storedEncryptedPk]
      · simp [storedWalletAddress]
      · intro id hid
        simp [sameAt, Function.update_noteq hid]

/-- Sign-up of `b@x.com` on the store that holds `a@x.com` creates the record
of `b@x.com` and leaves that of `a@x.com` alone. -/
theorem signup_contract_witness :
    (∃ t, (signup refEnv hashedFileDb refEntropy (some "b@x.com") (some "pw2")).2
        = .json 201 { accessToken := some t, walletAddress := some "0xaddrk1" })
      ∧ storedPasswordHash
          (signup refEnv hashedFileDb refEntropy (some "b@x.com") (some "pw2")).1 "b@x.com"
          = some (refEnv.bcryptHash "pw2" 7)
      ∧ sameAt hashedFileDb
          (signup refEnv hashedFileDb refEntropy (some "b@x.com") (some "pw2")).1 "a@x.com" :=
  have h := (signup_contract refEnv refEnv_jwtLaws (by decide) hashedFileDb refEntropy
    (some "b@x.com") (some "pw2")).2.2 "b@x.com" "pw2" (by decide) (by decide) rfl
  ⟨h.1, h.2.1, h.2.2.2.2 "a@x.com" (by decide)⟩

/-- C10 at the failing input: no record exists for `constructor` or `toString`
in the store that holds only `a@x.com`, and both id and password are present;
sign-up replies 409 `User already exists` and creates no record for the id.
On the empty relational store sign-up of `constructor` creates the record. -/
theorem signup_inherited_key_creates_nothing :
    hasRecord hashedFileDb "constructor" = false
      ∧ (signup refEnv hashedFileDb refEntropy (some "constructor") (some "pw1")).2
          = .json 409 { error := some "User already exists" }
      ∧ hasRecord (signup refEnv hashedFileDb refEntropy (some "constructor") (some "pw1")).1
          "constructor" = false
      ∧ hasRecord hashedFileDb "toString" = false
      ∧ (signup refEnv hashedFileDb refEntropy (some "toString") (some "pw1")).2
          = .json 409 { error := some "User already exists" }
      ∧ hasRecord (signup refEnv hashedFileDb refEntropy (some "toString") (some "pw1")).1
          "toString" = false
      ∧ hasRecord (signup refEnv emptyPgDb refEntropy (some "constructor") (some "pw1")).1
          "constructor" = true := by
  decide

/-! ## Start-up -/

theorem requireEnv_eq_none (env : String → Field) (name : String) :
    requireEnv env name none = none ↔ truthy (env name) = false := by
  unfold requireEnv
  rw [nonEmpty_eq_none_iff]
  by_cases h : truthy (env name) = true
  · simp [jsOr, h]
  · simp [jsOr, h, truthy_none]

theorem requireEnv_fallback (env : String → Field) (name fallback : String) (h : fallback ≠ "") :
    ∃ v, requireEnv env name (some fallback) = some v := by
  unfold requireEnv
  by_cases ht : truthy (env name) = true
  · cases hv : env name with
    | none => simp [hv, truthy] at ht
    | some v =>
      rw [hv] at ht
      exact ⟨v, by simp [jsOr, ht, nonEmpty_of_ne ((truthy_some v).1 ht)]⟩
  · exact ⟨fallback, by simp [jsOr, ht, nonEmpty_of_ne h]⟩

/-- C11, as the code has it: start-up exits with code 1 exactly when
`JWT_SECRET` or `USDC_CONTRACT_ADDRESS` is absent or empty, and reaches
`app.listen` exactly when both are set, whatever `RPC_URL` (which falls back to
its default), the bundler URL and the paymaster URL are. -/
theorem startup_iff (env : String → Field) :
    (startup env = .exited 1
        ↔ truthy (env "JWT_SECRET") = false ∨ truthy (env "USDC_CONTRACT_ADDRESS") = false)
      ∧ (startup env = .listening
        ↔ truthy (env "JWT_SECRET") = true ∧ truthy (env "USDC_CONTRACT_ADDRESS") = true) := by
  obtain ⟨r, hr⟩ := requireEnv_fallback env "RPC_URL" "https://sepolia.base.org" (by decide)
  have hj := requireEnv_eq_none env "JWT_SECRET"
  have hu := requireEnv_eq_none env "USDC_CONTRACT_ADDRESS"
  unfold startup
  rw [hr]
  cases h1 : requireEnv env "JWT_SECRET" none with
  | none =>
    have := hj.1 h1
    simp [this]
  | some a =>
    have h1t : truthy (env "JWT_SECRET") = true := by
      cases ht : truthy (env "JWT_SECRET") with
      | true => rfl
      | false => rw [hj.2 ht] at h1; cases h1
    cases h2 : requireEnv env "USDC_CONTRACT_ADDRESS" none with
    | none =>
      have := hu.1 h2
      simp [this]
    | some b =>
      have h2t : truthy (env "USDC_CONTRACT_ADDRESS") = true := by
        cases ht : truthy (env "USDC_CONTRACT_ADDRESS") with
        | true => rfl
        | false => rw [hu.2 ht] at h2; cases h2
      simp [h1t, h2t]

/-- C11 counterexample: with `JWT_SECRET` and `USDC_CONTRACT_ADDRESS` set and
`RPC_URL` absent, `requireEnv` takes the fallback URL and start-up reaches
`app.listen`. -/
theorem startup_without_rpc_url :
    minimalProcessEnv "RPC_URL" = none
      ∧ requireEnv minimalProcessEnv "RPC_URL" (some "https://sepolia.base.org")
          = some "https://sepolia.base.org"
      ∧ startup minimalProcessEnv = .listening := by
  decide

/-! ## The direct-transfer path -/

theorem refEnv_toUpperCase_usdc : refEnv.toUpperCase "USDC" = "USDC" := by
  show "USDC".map Char.toUpper = "USDC"
  rw [String.map_eq]
  decide

theorem selectsUsdc_of_picksToken (E : Env) (hup : E.toUpperCase "USDC" = "USDC")
    (token : JsValue) (h : picksToken E token) : selectsUsdc E token = .ok true := by
  unfold selectsUsdc
  rcases h with h | ⟨s, rfl, hs, hu⟩
  · simp [h, hup]
  · simp [JsValue.truthy, hs, hu]

theorem selectsUsdc_of_picksNative (E : Env) (token : JsValue) (h : picksNative E token) :
    selectsUsdc E token = .ok false := by
  unfold selectsUsdc
  obtain ⟨s, rfl, hs, hu⟩ := h
  simp [JsValue.truthy, hs, hu]

theorem send_of_buildTx (E : Env) (db : Db) (authorization : Field)
    (recipient amount token : JsValue) (user : User) (pk addr : String) (request : TxRequest)
    (hu : getUserFromAuthHeader E db authorization = some user)
    (hr : recipient.truthy = true) (ha : amount.truthy = true)
    (hk : getUserPrivateKey E user = .ok pk) (hw : E.walletAddress pk = .ok addr)
    (hb : buildTx E recipient amount token = .ok request) :
    send E db authorization recipient amount token = (db, submitAndWait E pk request) := by
  unfold send submitAndWait
  simp only [hu, hr, ha, hk, hw, hb, Bool.not_true, Bool.or_self, Bool.false_eq_true, if_false]
  cases E.submit pk request with
  | error e => rfl
  | ok hash =>
    simp only
    cases E.waitForTransaction hash with
    | error e => rfl
    | ok b => cases b <;> rfl

/-- C12: for a send request with a valid session, (1) when `to` or `amount` is
missing (falsy) the reply is 400 `Missing to/amount`, whatever the key of the
account is; (2) when both are present, the key is available and
`ethers.toBigInt` reads the amount as the integer `n`, the transaction that is
signed and submitted is `transfer(to, n)` on the contract of
`USDC_CONTRACT_ADDRESS` if the selector is absent or upper-cases to `USDC`,
and a native transfer of value `n` to `to` if the selector is another
non-empty string. -/
theorem send_builds_transfer (E : Env) (hup : E.toUpperCase "USDC" = "USDC") (db : Db)
    (authorization : Field) (recipient amount token : JsValue) (user : User)
    (hu : getUserFromAuthHeader E db authorization = some user) :
    ((recipient.truthy = false ∨ amount.truthy = false) →
        send E db authorization recipient amount token
          = (db, .json 400 { error := some "Missing to/amount" }))
      ∧ (∀ pk addr n, recipient.truthy = true → amount.truthy = true →
          getUserPrivateKey E user = .ok pk → E.walletAddress pk = .ok addr →
          E.toBigInt amount = .ok n →
          (∀ usdc, picksToken E token →
              nonEmpty (E.env "USDC_CONTRACT_ADDRESS") = some usdc →
              buildTx E recipient amount token = .ok (.erc20Transfer usdc recipient n)
                ∧ send E db authorization recipient amount token
                  = (db, submitAndWait E pk (.erc20Transfer usdc recipient n)))
            ∧ (picksNative E token →
              buildTx E recipient amount token = .ok (.native recipient n)
                ∧ send E db authorization recipient amount token
                  = (db, submitAndWait E pk (.native recipient n)))) := by
  refine ⟨?_, ?_⟩
  · intro h
    unfold send
    rcases h with h | h <;> simp [hu, h]
  · intro pk addr n hr ha hk hw hn
    refine ⟨?_, ?_⟩
    · intro usdc ht hc
      have hb : buildTx E recipient amount token = .ok (.erc20Transfer usdc recipient n) := by
        simp only [buildTx, selectsUsdc_of_picksToken E hup token ht, hc, hn]
      exact ⟨hb, send_of_buildTx E db authorization recipient amount token user pk addr _
        hu hr ha hk hw hb⟩
    · intro ht
      have hb : buildTx E recipient amount token = .ok (.native recipient n) := by
        simp only [buildTx, selectsUsdc_of_picksNative E token ht, hn]
      exact ⟨hb, send_of_buildTx E db authorization recipient amount token user pk addr _
        hu hr ha hk hw hb⟩

/-- C12 witness: `a@x.com` sends 1000000 base units to `0xbbb` with no selector;
the submitted transaction is `transfer(0xbbb, 1000000)` on `0xusdc`. -/
theorem send_builds_transfer_witness :
    buildTx refEnv (.str "0xbbb") (.num 1000000) .undefined
        = .ok (.erc20Transfer "0xusdc" (.str "0xbbb") 1000000)
      ∧ send refEnv hashedFileDb (some "Bearer jwt.a@x.com") (.str "0xbbb") (.num 1000000)
          .undefined
        = (hashedFileDb,
           submitAndWait refEnv "0xk1" (.erc20Transfer "0xusdc" (.str "0xbbb") 1000000)) :=
  ((send_builds_transfer refEnv refEnv_toUpperCase_usdc hashedFileDb (some "Bearer jwt.a@x.com")
      (.str "0xbbb") (.num 1000000) .undefined
      { passwordHash := some "$2a$10$pw1", walletAddress := some "0xaddrk1",
        encryptedPk := some refPayload }
      (by decide)).2 "0xk1" "0xaddrk1" 1000000 (by decide) (by decide) rfl rfl rfl).1
    "0xusdc" (Or.inl (by decide)) (by decide)

/-! ## Repeated sign-in -/

/-- C13 at the failing inputs, all in the file store. The record of `k@x.com`
has a plaintext password, a plaintext private key and an address: the first
sign-in returns a session for `0xaddrk1`, its migration write saves a record
without the private key, and the second sign-in replies 409. The record of
`h@x.com` has a hash and a plaintext private key but no address: the first
sign-in returns a session for the derived address, its repair write saves a
record without the private key, and the second sign-in replies 409. The
record of `l@x.com` has a plaintext password, an encrypted key and no address:
the repair write erases the hash the migration stored, and the second sign-in
replies 401. -/
theorem signin_not_repeatable :
    ((signin refEnv legacyKeyFileDb refEntropy (some "k@x.com") (some "p")).2
        = .json 200 { accessToken := some "jwt.k@x.com", walletAddress := some "0xaddrk1" }
      ∧ getUser (signin refEnv legacyKeyFileDb refEntropy (some "k@x.com") (some "p")).1
          (some "k@x.com")
        = some { passwordHash := some "$2a$10$p", walletAddress := some "0xaddrk1" }
      ∧ (signin refEnv (signin refEnv legacyKeyFileDb refEntropy (some "k@x.com") (some "p")).1
          refEntropy (some "k@x.com") (some "p")).2
        = .json 409 { error := some "account_requires_migration",
                      walletAddress := some "0xaddrk1" })
      ∧ ((signin refEnv plainKeyFileDb refEntropy (some "h@x.com") (some "pw1")).2
          = .json 200 { accessToken := some "jwt.h@x.com", walletAddress := some "0xaddrk1" }
        ∧ (signin refEnv (signin refEnv plainKeyFileDb refEntropy (some "h@x.com") (some "pw1")).1
            refEntropy (some "h@x.com") (some "pw1")).2
          = .json 409 { error := some "account_requires_migration",
                        walletAddress := some "0xaddrk1" })
      ∧ ((signin refEnv legacyFileDb refEntropy (some "l@x.com") (some "p")).2
          = .json 200 { accessToken := some "jwt.l@x.com", walletAddress := some "0xaddrk1" }
        ∧ (signin refEnv (signin refEnv legacyFileDb refEntropy (some "l@x.com") (some "p")).1
            refEntropy (some "l@x.com") (some "p")).2
          = .json 401 { error := some "Invalid credentials" }) := by
  decide

end Waas
